import Mathlib

/-!
Verification of the DermoFarm delegate chat pipeline.

Shallow embedding of `apps/chat/services.py`, `apps/chat/tasks.py` and the
data model of `apps/chat/models.py`. Python strings are Lean `String`s,
floats are `ℚ` (the scores handled here are exact small rationals), Django
rows are structures, and the message store is an explicit list threaded
through the functions. Fallible Python operations return `Except`.
-/

namespace DermoFarm

/- ### Python string primitives (on the alphabet this program uses) -/

/-- Whitespace characters recognised by Python `str.strip` / `str.split`. -/
def pyWs (c : Char) : Bool :=
  c = ' ' || c = '\t' || c = '\n' || c = '\r' || c = '\x0b' || c = '\x0c'

/-- Python `str.lower`, restricted to ASCII plus the accented letters that
appear in this repository's literals. -/
def lowerChar (c : Char) : Char :=
  if 'A' ≤ c ∧ c ≤ 'Z' then Char.ofNat (c.toNat + 32)
  else if c = 'Á' then 'á'
  else if c = 'É' then 'é'
  else if c = 'Í' then 'í'
  else if c = 'Ó' then 'ó'
  else if c = 'Ú' then 'ú'
  else if c = 'Ñ' then 'ñ'
  else if c = 'Ü' then 'ü'
  else c

def pyLower (s : String) : String :=
  String.mk (s.toList.map lowerChar)

/-- Python `str.strip()` with no argument. -/
def pyStripList (l : List Char) : List Char :=
  ((l.dropWhile pyWs).reverse.dropWhile pyWs).reverse

def pyStrip (s : String) : String :=
  String.mk (pyStripList s.toList)

/-- Python `str.split()` with no argument: split on whitespace runs,
omitting empty pieces. -/
def pySplitWsGo (cur : List Char) (acc : List (List Char)) : List Char → List (List Char)
  | [] => if cur = [] then acc.reverse else (cur.reverse :: acc).reverse
  | c :: cs =>
      if pyWs c then
        if cur = [] then pySplitWsGo [] acc cs
        else pySplitWsGo [] (cur.reverse :: acc) cs
      else pySplitWsGo (c :: cur) acc cs

def pySplitWs (s : String) : List (List Char) :=
  pySplitWsGo [] [] s.toList

/-- Python `str.split(sep)` for a one-character separator: splitting the
empty string yields `[""]`, and empty pieces are kept. -/
def splitOnChar (sep : Char) : List Char → List (List Char)
  | [] => [[]]
  | c :: cs =>
      if c = sep then [] :: splitOnChar sep cs
      else
        match splitOnChar sep cs with
        | r :: rs => (c :: r) :: rs
        | [] => [[c]]

def pySplit (sep : Char) (s : String) : List String :=
  (splitOnChar sep s.toList).map String.mk

/-- Python `sep.join(pieces)` on char lists. -/
def joinChars (sep : List Char) : List (List Char) → List Char
  | [] => []
  | [x] => x
  | x :: xs => x ++ sep ++ joinChars sep xs

/-- `QAService._normalize_text`: lower-case, then collapse whitespace by
`' '.join(text.lower().split())`. -/
def normalizeText (text : String) : String :=
  String.mk (joinChars [' '] (pySplitWs (pyLower text)))

/-- Python substring containment `needle in hay` on char lists. -/
def containsList (hay needle : List Char) : Bool :=
  match hay with
  | [] => needle.isEmpty
  | _ :: t => needle.isPrefixOf hay || containsList t needle

/-- Python `needle in hay` for strings. -/
def pyContains (needle hay : String) : Bool :=
  containsList hay.toList needle.toList

/-- Python `s.isdigit()` restricted to ASCII digits. -/
def pyIsDigit (s : String) : Bool :=
  s ≠ "" && s.toList.all Char.isDigit

/-- Value of an ASCII digit run, as produced by Python `int` on an
`isdigit` string. -/
def digitsToNat (l : List Char) : Nat :=
  l.foldl (fun acc c => acc * 10 + (c.toNat - '0'.toNat)) 0

def pyInt (s : String) : Nat :=
  digitsToNat s.toList

/- ### difflib.SequenceMatcher

`_match_by_similarity` scores `SequenceMatcher(None, a, b).ratio()`.
The inputs here are short normalized strings, far below the autojunk
threshold, so the matcher reduces to: repeatedly take the longest matching
block (earliest in `a`, then in `b`, among the longest) and recurse on the
pieces to its left and right; `ratio = 2*M/(len a + len b)` where `M` is
the total length of the matching blocks. -/

/-- Length of the common prefix of two char lists. -/
def cpl : List Char → List Char → Nat
  | a :: as, b :: bs => if a = b then cpl as bs + 1 else 0
  | _, _ => 0

/-- All candidate blocks `(i, j, k)` where `k` is the length of the match
of `a` at `i` against `b` at `j`, in the scan order of
`find_longest_match` (increasing `i`, then increasing `j`). -/
def smCandidates (a b : List Char) : List (Nat × Nat × Nat) :=
  (List.range a.length).flatMap fun i =>
    (List.range b.length).map fun j => (i, j, cpl (a.drop i) (b.drop j))

/-- Keep the first candidate attaining the maximal `k`: `find_longest_match`
updates its best block only on a strictly longer match. -/
def smPick (best : Nat × Nat × Nat) : List (Nat × Nat × Nat) → Nat × Nat × Nat
  | [] => best
  | c :: cs => smPick (if best.2.2 < c.2.2 then c else best) cs

def findBestBlock (a b : List Char) : Nat × Nat × Nat :=
  smPick (0, 0, 0) (smCandidates a b)

/-- Total matched length over the recursive block decomposition, with an
explicit recursion budget so that concrete instances evaluate. -/
def matchTotalF : Nat → List Char → List Char → Nat
  | 0, _, _ => 0
  | fuel + 1, a, b =>
      if (findBestBlock a b).2.2 = 0 then 0
      else
        matchTotalF fuel (a.take (findBestBlock a b).1) (b.take (findBestBlock a b).2.1) +
          (findBestBlock a b).2.2 +
          matchTotalF fuel (a.drop ((findBestBlock a b).1 + (findBestBlock a b).2.2))
            (b.drop ((findBestBlock a b).2.1 + (findBestBlock a b).2.2))

def matchTotal (a b : List Char) : Nat :=
  matchTotalF (a.length + b.length) a b

/-- `SequenceMatcher.ratio()`, the exact rational `2*M/(len a + len b)`;
on two empty sequences Python returns 1. -/
def smRatio (a b : List Char) : ℚ :=
  if a.length + b.length = 0 then 1
  else mkRat (2 * matchTotal a b) (a.length + b.length)

def similarity (a b : String) : ℚ :=
  smRatio a.toList b.toList

/- ### Q&A data model (`apps/chat/models.py`) -/

structure QuestionRow where
  id : Nat
  text : String
  keywords : String
  is_active : Bool
deriving DecidableEq

/-- `Answer` as declared in `models.py`: its text field is named
`content`; the model has no field named `text`. -/
structure AnswerRow where
  id : Nat
  question_id : Nat
  content : String
  is_default : Bool
deriving DecidableEq

structure QADb where
  questions : List QuestionRow
  answers : List AnswerRow

/-- `question.answers` (reverse FK accessor), in row order. -/
def QADb.answersOf (db : QADb) (q : QuestionRow) : List AnswerRow :=
  db.answers.filter fun a => a.question_id == q.id

/-- `Question.objects.filter(is_active=True)`. -/
def activeQuestions (db : QADb) : List QuestionRow :=
  db.questions.filter fun q => q.is_active

/-- Exceptions the embedded Python code can raise. -/
inductive PyErr where
  | attributeError
  | typeError
  | fieldError
  | multipleObjects
  | keyError
  | indexError
  | runtimeError
deriving DecidableEq

/-- `QAService.MATCH_THRESHOLD`, the literal 0.6. -/
def MATCH_THRESHOLD : ℚ := mkRat 6 10

/-- `QAService._match_by_keywords`: per active question with a non-empty
keyword list, the maximum of `len(keyword)/len(query)` over the
comma-separated keywords contained in the query; kept when positive. -/
def matchByKeywords (db : QADb) (query : String) : List (QuestionRow × ℚ) :=
  (activeQuestions db).filterMap fun q =>
    if q.keywords = "" then none
    else
      let kws := (pySplit ',' q.keywords).map fun k => pyLower (pyStrip k)
      let maxScore : ℚ := kws.foldl
        (fun m k =>
          if pyContains k query then
            max m (if query.length = 0 then 0 else mkRat k.length query.length)
          else m) 0
      if 0 < maxScore then some (q, maxScore) else none

/-- `QAService._match_by_similarity`: similarity of the query against each
active question's normalized text, kept when positive. -/
def matchBySimilarity (db : QADb) (query : String) : List (QuestionRow × ℚ) :=
  (activeQuestions db).filterMap fun q =>
    if 0 < similarity query (normalizeText q.text) then
      some (q, similarity query (normalizeText q.text))
    else none

/-- Running best of Python's stable max scan: a later element replaces the
best only with a strictly larger score. -/
def pickTop (best : QuestionRow × ℚ) : List (QuestionRow × ℚ) → QuestionRow × ℚ
  | [] => best
  | c :: cs => pickTop (if best.2 < c.2 then c else best) cs

/-- Head of Python's stable descending sort by score: the first element
attaining the maximal score. -/
def topByScore : List (QuestionRow × ℚ) → Option (QuestionRow × ℚ)
  | [] => none
  | x :: xs => some (pickTop x xs)

/-- Second pass of `find_matching_question`: full-text similarity, reached
when the keyword pass produced nothing at or above the threshold. -/
def simStep (db : QADb) (q : String) : Option QuestionRow × ℚ :=
  match topByScore (matchBySimilarity db q) with
  | some (qq, s) => if MATCH_THRESHOLD ≤ s then (some qq, s) else (none, 0)
  | none => (none, 0)

/-- `QAService.find_matching_question`. -/
def findMatchingQuestion (db : QADb) (user_query : String) : Option QuestionRow × ℚ :=
  if user_query = "" ∨ (pyStrip user_query).length < 3 then (none, 0)
  else
    match topByScore (matchByKeywords db (normalizeText user_query)) with
    | some (qq, s) =>
        if MATCH_THRESHOLD ≤ s then (some qq, s)
        else simStep db (normalizeText user_query)
    | none => simStep db (normalizeText user_query)

/-- `QAService.get_answer`. `question.answers.get(is_default=True)` raises
`MultipleObjectsReturned` (uncaught) past one default; otherwise the code
reads `.text` on the fetched `Answer`, an attribute the model does not
define (its field is `content`), so any existing answer raises
`AttributeError`; with no answer at all it returns `None`. -/
def getAnswer (db : QADb) (q : QuestionRow) : Except PyErr (Option String) :=
  match (db.answersOf q).filter (fun a => a.is_default) with
  | [_] => .error .attributeError
  | [] =>
      match (db.answersOf q).head? with
      | some _ => .error .attributeError
      | none => .ok none
  | _ => .error .multipleObjects

structure QAResult where
  success : Bool
  response : Option String
  confidence : ℚ
  question_id : Option Nat
  answer_id : Option Nat
deriving DecidableEq

/-- Rows of the `QAInteraction` table (append-only log). -/
structure QAInteractionRow where
  user_query : String
  matched_question : Option Nat
  provided_answer : Option Nat
  success_rate : ℚ
  conversation : Nat
deriving DecidableEq

/-- `QAService.process_query`. On a no-match it returns the unsuccessful
result without touching the log. On a match it calls `get_answer` (which
raises, see above); even past that, `answers.filter(text=...)` would raise
`FieldError` and `QAInteraction.objects.create(..., delegate=...)` would
raise `TypeError`, the model having no `delegate` field, so no row is ever
appended on the success path. -/
def processQuery (db : QADb) (user_query : String) (conv : Nat)
    (log : List QAInteractionRow) : Except PyErr QAResult × List QAInteractionRow :=
  let fm := findMatchingQuestion db user_query
  let result : QAResult := ⟨false, none, fm.2, none, none⟩
  match fm.1 with
  | none => (.ok result, log)
  | some q =>
      if fm.2 < MATCH_THRESHOLD then (.ok result, log)
      else
        match getAnswer db q with
        | .error e => (.error e, log)
        | .ok none => (.ok result, log)
        | .ok (some answer_text) =>
            if answer_text = "" then (.ok result, log)
            else (.error .fieldError, log)

/- ### JSON session data (`json.dumps` / `json.loads` on the session values)

Session `Data` is a JSON value: `None`, booleans, integers, strings,
lists, and string-keyed dicts (the values this engine stores). `jDumps`
embeds `json.dumps` with its default settings (`ensure_ascii=True`,
separators `", "` and `": "`); `jLoads` embeds `json.loads` on the
grammar `json.dumps` emits, returning `none` on anything it cannot
decode (`json.loads` raises `JSONDecodeError` there). -/

inductive JVal where
  | null
  | bool (b : Bool)
  | num (n : Int)
  | str (s : String)
  | arr (items : List JVal)
  | obj (fields : List (String × JVal))

/-- Lower-case hex digit, also used for decimal digits. -/
def hexDigitChar (n : Nat) : Char :=
  if n < 10 then Char.ofNat ('0'.toNat + n) else Char.ofNat ('a'.toNat + (n - 10))

/-- The four hex digits of `'\uXXXX'` escapes (`'%04x'`). -/
def toHex4 (n : Nat) : List Char :=
  [hexDigitChar (n / 4096 % 16), hexDigitChar (n / 256 % 16),
    hexDigitChar (n / 16 % 16), hexDigitChar (n % 16)]

/-- One character of `json.encoder.py_encode_basestring_ascii`: the seven
short escapes, `'\uXXXX'` (with a surrogate pair above the BMP) for other
characters outside `0x20..0x7E`, and the character itself otherwise. -/
def escapeChar (c : Char) : List Char :=
  if c = '\\' then ['\\', '\\']
  else if c = '"' then ['\\', '"']
  else if c = '\x08' then ['\\', 'b']
  else if c = '\x0c' then ['\\', 'f']
  else if c = '\n' then ['\\', 'n']
  else if c = '\r' then ['\\', 'r']
  else if c = '\t' then ['\\', 't']
  else if c.toNat < 0x20 ∨ 0x7E < c.toNat then
    if c.toNat < 0x10000 then '\\' :: 'u' :: toHex4 c.toNat
    else
      ('\\' :: 'u' :: toHex4 (0xD800 + (c.toNat - 0x10000) / 0x400)) ++
        ('\\' :: 'u' :: toHex4 (0xDC00 + (c.toNat - 0x10000) % 0x400))
  else [c]

def escapeList (l : List Char) : List Char :=
  l.flatMap escapeChar

/-- `json.dumps` rendering of a string literal. -/
def encodeStr (s : String) : List Char :=
  '"' :: (escapeList s.toList ++ ['"'])

/-- Decimal digits of a natural number, most significant first. -/
def natCharsF : Nat → Nat → List Char
  | 0, _ => []
  | fuel + 1, n => if n = 0 then [] else natCharsF fuel (n / 10) ++ [hexDigitChar (n % 10)]

def natChars (n : Nat) : List Char :=
  if n = 0 then ['0'] else natCharsF (n + 1) n

/-- `json.dumps` rendering of a Python int. -/
def encodeInt : Int → List Char
  | .ofNat m => natChars m
  | .negSucc m => '-' :: natChars (m + 1)

mutual
def encodeVal : JVal → List Char
  | .null => 'n' :: ['u', 'l', 'l']
  | .bool true => 't' :: ['r', 'u', 'e']
  | .bool false => 'f' :: ['a', 'l', 's', 'e']
  | .num n => encodeInt n
  | .str s => encodeStr s
  | .arr xs => '[' :: (encodeItems xs ++ [']'])
  | .obj fs => '{' :: (encodeFields fs ++ ['}'])
def encodeItems : List JVal → List Char
  | [] => []
  | [x] => encodeVal x
  | x :: y :: ys => encodeVal x ++ [',', ' '] ++ encodeItems (y :: ys)
def encodeFields : List (String × JVal) → List Char
  | [] => []
  | [(k, v)] => encodeStr k ++ [':', ' '] ++ encodeVal v
  | (k, v) :: f :: fs =>
      encodeStr k ++ [':', ' '] ++ encodeVal v ++ [',', ' '] ++ encodeFields (f :: fs)
end

def jDumps (v : JVal) : String :=
  String.mk (encodeVal v)

/-- What follows the first item in an array encoding. -/
def itemsTail : List JVal → List Char
  | [] => []
  | y :: ys => ',' :: ' ' :: encodeItems (y :: ys)

/-- What follows the first field in an object encoding. -/
def fieldsTail : List (String × JVal) → List Char
  | [] => []
  | f :: fs2 => ',' :: ' ' :: encodeFields (f :: fs2)

/- Fuel measure dominating the parser's recursion depth on an encoding. -/
mutual
def sizeJ : JVal → Nat
  | .null => 1
  | .bool _ => 1
  | .num _ => 1
  | .str _ => 1
  | .arr xs => 1 + sizeJL xs
  | .obj fs => 1 + sizeJF fs
def sizeJL : List JVal → Nat
  | [] => 0
  | x :: xs => 1 + sizeJ x + sizeJL xs
def sizeJF : List (String × JVal) → Nat
  | [] => 0
  | f :: fs => 1 + sizeJ f.2 + sizeJF fs
end

/-- Value of a lower- or upper-case hex digit. -/
def hexVal (c : Char) : Option Nat :=
  if '0' ≤ c ∧ c ≤ '9' then some (c.toNat - 48)
  else if 'a' ≤ c ∧ c ≤ 'f' then some (c.toNat - 87)
  else if 'A' ≤ c ∧ c ≤ 'F' then some (c.toNat - 55)
  else none

/-- Low half of a surrogate pair: combine with the pending high half. -/
def parseULow (hi : Nat) (g1 g2 g3 g4 : Char) (rest4 : List Char) :
    Option (Option Char × List Char) :=
  match hexVal g1, hexVal g2, hexVal g3, hexVal g4 with
  | some a2, some b2, some c3, some d2 =>
      if 0xDC00 ≤ ((a2 * 16 + b2) * 16 + c3) * 16 + d2 ∧
          ((a2 * 16 + b2) * 16 + c3) * 16 + d2 ≤ 0xDFFF then
        some (some (Char.ofNat (0x10000 + (hi - 0xD800) * 0x400 +
          (((a2 * 16 + b2) * 16 + c3) * 16 + d2 - 0xDC00))), rest4)
      else none
  | _, _, _, _ => none

/-- A `'\uXXXX'` escape: a BMP scalar directly, a high surrogate only when
followed by a low one (a lone surrogate has no `Char`, rejected). -/
def parseUEscape (h1 h2 h3 h4 : Char) (rest3 : List Char) :
    Option (Option Char × List Char) :=
  match hexVal h1, hexVal h2, hexVal h3, hexVal h4 with
  | some a, some b, some c2, some d =>
      if 0xD800 ≤ ((a * 16 + b) * 16 + c2) * 16 + d ∧
          ((a * 16 + b) * 16 + c2) * 16 + d ≤ 0xDBFF then
        match rest3 with
        | b1 :: u1 :: g1 :: g2 :: g3 :: g4 :: rest4 =>
            if b1 = '\\' ∧ u1 = 'u' then
              parseULow (((a * 16 + b) * 16 + c2) * 16 + d) g1 g2 g3 g4 rest4
            else none
        | _ => none
      else if 0xDC00 ≤ ((a * 16 + b) * 16 + c2) * 16 + d ∧
          ((a * 16 + b) * 16 + c2) * 16 + d ≤ 0xDFFF then none
      else some (some (Char.ofNat (((a * 16 + b) * 16 + c2) * 16 + d)), rest3)
  | _, _, _, _ => none

/-- The seven short escapes plus `'\/'`. -/
def shortEscape (e : Char) : Option Char :=
  if e = '"' then some '"'
  else if e = '\\' then some '\\'
  else if e = '/' then some '/'
  else if e = 'b' then some '\x08'
  else if e = 'f' then some '\x0c'
  else if e = 'n' then some '\n'
  else if e = 'r' then some '\r'
  else if e = 't' then some '\t'
  else none

/-- One unit of a string literal: the closing quote (`some (none, _)`),
or one decoded character (`some (some ch, _)`). -/
def parseStrUnit : List Char → Option (Option Char × List Char)
  | [] => none
  | c :: rest =>
      if c = '"' then some (none, rest)
      else if c = '\\' then
        match rest with
        | [] => none
        | e :: rest2 =>
            if e = 'u' then
              match rest2 with
              | h1 :: h2 :: h3 :: h4 :: rest3 => parseUEscape h1 h2 h3 h4 rest3
              | _ => none
            else
              match shortEscape e with
              | some ch => some (some ch, rest2)
              | none => none
      else some (some c, rest)

/-- String-literal body decoder: consumes units up to the closing quote. -/
def parseStrF : Nat → List Char → Option (List Char × List Char)
  | 0, _ => none
  | fuel + 1, input =>
      match parseStrUnit input with
      | some (none, rest) => some ([], rest)
      | some (some ch, rest) =>
          match parseStrF fuel rest with
          | some (l, r) => some (ch :: l, r)
          | none => none
      | none => none

/-- Digit-run decoder used by the number branch. -/
def parseNum (neg : Bool) (l : List Char) : Option (JVal × List Char) :=
  if l.takeWhile Char.isDigit = [] then none
  else
    some (.num (if neg then -(digitsToNat (l.takeWhile Char.isDigit) : Int)
      else (digitsToNat (l.takeWhile Char.isDigit) : Int)),
      l.dropWhile Char.isDigit)

mutual
def parseVal : Nat → List Char → Option (JVal × List Char)
  | 0, _ => none
  | fuel + 1, input =>
      match input with
      | [] => none
      | c :: rest =>
          if c = 'n' then
            match rest with
            | 'u' :: 'l' :: 'l' :: r => some (.null, r)
            | _ => none
          else if c = 't' then
            match rest with
            | 'r' :: 'u' :: 'e' :: r => some (.bool true, r)
            | _ => none
          else if c = 'f' then
            match rest with
            | 'a' :: 'l' :: 's' :: 'e' :: r => some (.bool false, r)
            | _ => none
          else if c = '"' then
            match parseStrF (rest.length + 1) rest with
            | some (l, r) => some (.str (String.mk l), r)
            | none => none
          else if c = '[' then
            match rest with
            | [] => none
            | c2 :: r2 =>
                if c2 = ']' then some (.arr [], r2)
                else
                  match parseItems fuel (c2 :: r2) with
                  | some (vs, r) => some (.arr vs, r)
                  | none => none
          else if c = '{' then
            match rest with
            | [] => none
            | c2 :: r2 =>
                if c2 = '}' then some (.obj [], r2)
                else
                  match parseFields fuel (c2 :: r2) with
                  | some (fs, r) => some (.obj fs, r)
                  | none => none
          else if c = '-' then parseNum true rest
          else if c.isDigit then parseNum false (c :: rest)
          else none
def parseItems : Nat → List Char → Option (List JVal × List Char)
  | 0, _ => none
  | fuel + 1, input =>
      match parseVal fuel input with
      | some (v, rest) =>
          match rest with
          | ']' :: r => some ([v], r)
          | ',' :: ' ' :: r =>
              match parseItems fuel r with
              | some (vs, r2) => some (v :: vs, r2)
              | none => none
          | _ => none
      | none => none
def parseFields : Nat → List Char → Option (List (String × JVal) × List Char)
  | 0, _ => none
  | fuel + 1, input =>
      match input with
      | '"' :: rest =>
          match parseStrF (rest.length + 1) rest with
          | some (k, r) =>
              match r with
              | ':' :: ' ' :: r2 =>
                  match parseVal fuel r2 with
                  | some (v, r3) =>
                      match r3 with
                      | '}' :: r4 => some ([(String.mk k, v)], r4)
                      | ',' :: ' ' :: r4 =>
                          match parseFields fuel r4 with
                          | some (fs, r5) => some ((String.mk k, v) :: fs, r5)
                          | none => none
                      | _ => none
                  | none => none
              | _ => none
          | none => none
      | _ => none
end

/-- `json.loads`, requiring the whole input to be consumed. -/
def jLoads (s : String) : Option JVal :=
  match parseVal (s.length + 1) s.toList with
  | some (v, []) => some v
  | _ => none

/- ### Session message store (`Message` rows of one conversation)

The store is the conversation's message list in creation order
(timestamps are strictly increasing), so `order_by('-timestamp').first()`
is the last matching element. -/

structure Msg where
  content : String
  direction : String
  ai_processed : Bool
deriving DecidableEq

/-- `Message.objects.filter(...).order_by('-timestamp').first()`. -/
def lastMatching (p : Msg → Bool) (log : List Msg) : Option Msg :=
  (log.filter p).getLast?

/-- `content__startswith=pre`. -/
def contentStartsWith (m : Msg) (pre : String) : Bool :=
  pre.toList.isPrefixOf m.content.toList

def isStateMsg (m : Msg) : Bool :=
  contentStartsWith m "__STATE__:"

def isDataMsg (m : Msg) : Bool :=
  contentStartsWith m "__DATA__:"

/-- Python `content.split(":", 1)[1]`: everything after the first colon,
`none` when there is no colon (the `[1]` would raise `IndexError`,
which the callers catch). -/
def afterColon : List Char → Option (List Char)
  | [] => none
  | c :: cs => if c = ':' then some cs else afterColon cs

/-- `SmartResponseEngine.SESSION_STATES['INITIAL']`. -/
def SESSION_INITIAL : String := "initial"

/-- `SmartResponseEngine._get_session_state`. -/
def getSessionState (log : List Msg) : String :=
  match lastMatching isStateMsg log with
  | some m =>
      match afterColon m.content.toList with
      | some t => String.mk (pyStripList t)
      | none => SESSION_INITIAL
  | none => SESSION_INITIAL

/-- `SmartResponseEngine._get_session_data`. -/
def getSessionData (log : List Msg) : JVal :=
  match lastMatching isDataMsg log with
  | some m =>
      match afterColon m.content.toList with
      | some t =>
          match jLoads (String.mk (pyStripList t)) with
          | some v => v
          | none => JVal.obj []
      | none => JVal.obj []
  | none => JVal.obj []

/-- `SmartResponseEngine._save_session_state`: a brand-new outbound
message, already marked processed. -/
def saveSessionState (log : List Msg) (state : String) : List Msg :=
  log ++ [⟨"__STATE__:" ++ state, "OUT", true⟩]

/-- `SmartResponseEngine._save_session_data`. -/
def saveSessionData (log : List Msg) (data : JVal) : List Msg :=
  log ++ [⟨"__DATA__:" ++ jDumps data, "OUT", true⟩]

/- ### Concrete fixtures used by the theorems -/

/-- Database for C1: one active question with a single default answer. -/
def dbC1 : QADb :=
  ⟨[⟨0, "abc", "", true⟩], [⟨0, 0, "respuesta uno", true⟩]⟩

/-- Database for C2: the query "abc" matches the question exactly, and the
question has an answer, so the claim expects one logged interaction. -/
def dbC2 : QADb :=
  ⟨[⟨0, "abc", "", true⟩], [⟨0, 0, "respuesta uno", false⟩]⟩

/-- Question for the C6 counterexample: its keyword "abcd" covers 4 of the
6 characters of the query "abcdef", which is its exact text. -/
def qC6 : QuestionRow := ⟨0, "abcdef", "abcd", true⟩

/-- Question for the C6 witness: no keywords, text equal to the query. -/
def qC6w : QuestionRow := ⟨3, "que hago", "", true⟩

/- ### SmartResponseEngine (`services.py` 140-552)

The engine reads its session state and data from the message log, then
dispatches on the detected intent and the session state.  Database
collaborators (the `Pharmacy`, `Visit` and `Feedback` managers) are
abstracted as an environment of fallible functions; querysets appear as
their evaluated row lists. -/

/-- Python `\w` as used by `re` on these Spanish patterns: ASCII
alphanumerics, underscore, and the Latin-1 Supplement / Latin Extended-A
letters (which cover every accented character in the patterns). -/
def wordChar (c : Char) : Bool :=
  c.isAlphanum || c = '_' ||
    (0xC0 ≤ c.toNat && c.toNat ≤ 0x17F && c.toNat ≠ 0xD7 && c.toNat ≠ 0xF7)

/-- Boundary `\b` before the match: start of string or a non-word char. -/
def boundaryOk : Option Char → Bool
  | none => true
  | some c => !wordChar c

/-- Boundary `\b` after the match: end of string or a non-word char. -/
def nextBoundary : List Char → Bool
  | [] => true
  | c :: _ => !wordChar c

/-- Does one of the alternatives match at the current position, with a
word boundary on each side? -/
def altsHere (alts : List (List Char)) (prev : Option Char) (s : List Char) : Bool :=
  boundaryOk prev && alts.any fun a => a.isPrefixOf s && nextBoundary (s.drop a.length)

/-- Scan of `re.search` for an alternation wrapped in `\b( ... )\b`. -/
def reSearchGo (alts : List (List Char)) (prev : Option Char) : List Char → Bool
  | [] => altsHere alts prev []
  | c :: cs => altsHere alts prev (c :: cs) || reSearchGo alts (some c) cs

def reSearchWord (alts : List String) (s : String) : Bool :=
  reSearchGo (alts.map String.toList) none s.toList

/-- `SmartResponseEngine._detect_intent`: the first pattern of
`INTENT_PATTERNS` (in insertion order) that `re.search` finds in the
lower-cased message. -/
def detectIntent (message : String) : String :=
  let m := pyLower message
  if reSearchWord ["hola", "buenos días", "buenas tardes", "saludos", "hey"] m then
    "greeting"
  else if reSearchWord ["farmacia", "farmacias", "botica", "droguería"] m then
    "pharmacy_search"
  else if reSearchWord ["visita", "visitar", "visitando", "visitado"] m then
    "visit_info"
  else if reSearchWord ["feedback", "comentario", "opinión", "valoración",
      "retroalimentación"] m then
    "feedback"
  else if reSearchWord ["informe", "reporte", "resumen"] m then
    "report"
  else if reSearchWord ["ayuda", "ayúdame", "como", "cómo", "instrucciones",
      "opciones"] m then
    "help"
  else "unknown"

/- #### Python operations on decoded JSON values

`session_data` is whatever `json.loads` produced, so every subscript,
`in`, `len`, `.get` and `{**d, ...}` on it carries Python error
semantics. -/

/-- Python truthiness of a JSON value. -/
def pyTruthy : JVal → Bool
  | .null => false
  | .bool b => b
  | .num n => n ≠ 0
  | .str s => !s.toList.isEmpty
  | .arr xs => !xs.isEmpty
  | .obj fs => !fs.isEmpty

/-- Python `k in v` for a string `k`: key lookup on dicts, membership on
lists, substring on strings, `TypeError` otherwise. -/
def pyIn (k : String) : JVal → Except PyErr Bool
  | .obj fs => .ok (fs.any fun f => f.1 = k)
  | .arr xs => .ok (xs.any fun x => match x with | .str t => t = k | _ => false)
  | .str s => .ok (pyContains k s)
  | _ => .error .typeError

/-- Python `v[k]` for a string key: `KeyError` on a missing key,
`TypeError` when `v` is not a dict. -/
def pySubscript (k : String) : JVal → Except PyErr JVal
  | .obj fs =>
      match fs.find? (fun f => f.1 = k) with
      | some f => .ok f.2
      | none => .error .keyError
  | _ => .error .typeError

/-- Python `len(v)`. -/
def pyLen : JVal → Except PyErr Int
  | .arr xs => .ok xs.length
  | .obj fs => .ok fs.length
  | .str s => .ok s.toList.length
  | _ => .error .typeError

/-- Python `v[i]` for an int index (with negative indexing). -/
def pyIndex (i : Int) : JVal → Except PyErr JVal
  | .arr xs =>
      let j := if i < 0 then i + xs.length else i
      if 0 ≤ j ∧ j < (xs.length : Int) then .ok (xs.getD j.toNat JVal.null)
      else .error .indexError
  | _ => .error .typeError

/-- Python `d.get(k, dflt)`: `AttributeError` when `d` is not a dict
(`None` and lists have no `.get`). -/
def pyDictGet (k : String) (dflt : JVal) : JVal → Except PyErr JVal
  | .obj fs =>
      .ok (match fs.find? (fun f => f.1 = k) with | some f => f.2 | none => dflt)
  | _ => .error .attributeError

/-- Python `{**d, k: v}`: `TypeError` when `d` is not a dict. -/
def pyMerge (k : String) (v : JVal) : JVal → Except PyErr JVal
  | .obj fs =>
      .ok (.obj (if fs.any (fun f => f.1 = k)
        then fs.map (fun f => if f.1 = k then (k, v) else f)
        else fs ++ [(k, v)]))
  | _ => .error .typeError

/- Python `repr` of a decoded JSON value (used by `str` on containers). -/
mutual
def pyReprVal : JVal → List Char
  | .null => ['N', 'o', 'n', 'e']
  | .bool true => ['T', 'r', 'u', 'e']
  | .bool false => ['F', 'a', 'l', 's', 'e']
  | .num n => encodeInt n
  | .str s => '\x27' :: (s.toList ++ ['\x27'])
  | .arr xs => '[' :: (pyReprItems xs ++ [']'])
  | .obj fs => '{' :: (pyReprFields fs ++ ['}'])
def pyReprItems : List JVal → List Char
  | [] => []
  | [x] => pyReprVal x
  | x :: y :: ys => pyReprVal x ++ [',', ' '] ++ pyReprItems (y :: ys)
def pyReprFields : List (String × JVal) → List Char
  | [] => []
  | [(k, v)] => '\x27' :: (k.toList ++ ['\x27', ':', ' ']) ++ pyReprVal v
  | (k, v) :: f :: fs =>
      '\x27' :: (k.toList ++ ['\x27', ':', ' ']) ++ pyReprVal v ++ [',', ' '] ++
        pyReprFields (f :: fs)
end

/-- Python `str(v)` as f-strings apply it to a decoded JSON value. -/
def pyStrOf : JVal → String
  | .str s => s
  | v => String.mk (pyReprVal v)

/- #### Database rows and the engine environment -/

/-- `Pharmacy` row as the engine reads it (`last_visit` already rendered
by `strftime('%d/%m/%Y')`). -/
structure PharmacyRow where
  id : Int
  name : String
  address : String
  phone : String
  email : String
  last_visit : Option String

/-- `Visit` row as the engine reads it (`date` rendered by `strftime`,
`statusDisplay` is `get_status_display()`). -/
structure VisitRow where
  id : Int
  date : String
  status : String
  statusDisplay : String

/-- The engine's fallible collaborators: `conversation.delegate` and the
ORM calls of `_search_pharmacy`, `_get_pharmacy_details`,
`_get_visit_options` and the feedback branch.  `Option` encodes a caught
`DoesNotExist`; `PyErr` any other database exception. -/
structure SREnv where
  delegateName : Option String
  pharmacyFilter : String → Except PyErr (List PharmacyRow)
  pharmacyGet : JVal → Except PyErr (Option PharmacyRow)
  lastVisitOf : Int → Except PyErr (Option VisitRow)
  recentVisitsOf : Int → Except PyErr (List VisitRow)
  createVisit : JVal → Except PyErr Int
  getVisit : JVal → Except PyErr (Option VisitRow)
  createFeedback : Int → String → Except PyErr Unit

/-- The pharmacy dict built by `_search_pharmacy` (lines 254-259). -/
structure PharmInfo where
  id : Int
  name : String
  address : String
  last_visit : String

def pharmInfoJ (p : PharmInfo) : JVal :=
  .obj [("id", .num p.id), ("name", .str p.name), ("address", .str p.address),
    ("last_visit", .str p.last_visit)]

/-- Python `s.replace(pat, repl)` on char lists, with a fuel bound (the
scan consumes at least one character per step). -/
def replaceListF (pat repl : List Char) : Nat → List Char → List Char
  | 0, s => s
  | _ + 1, [] => []
  | f + 1, c :: cs =>
      if pat.isPrefixOf (c :: cs) then
        repl ++ replaceListF pat repl f ((c :: cs).drop pat.length)
      else c :: replaceListF pat repl f cs

/-- `SmartResponseEngine._search_pharmacy`: strip the word "farmacia"
from the lower-cased message, require at least 3 characters, and build
the info dicts from the filtered rows. -/
def searchPharmacy (env : SREnv) (message : String) : Except PyErr (List PharmInfo) :=
  let lowered := (pyLower message).toList
  let terms := pyStripList (replaceListF "farmacia".toList [] (lowered.length + 1) lowered)
  if terms.length < 3 then .ok []
  else
    match env.pharmacyFilter (String.mk terms) with
    | .error e => .error e
    | .ok rows =>
        .ok (rows.map fun p =>
          ⟨p.id, p.name, p.address,
            match p.last_visit with | some d => d | none => "Sin visitas previas"⟩)

/-- The dict built by `_get_pharmacy_details`. -/
structure PharmDetails where
  id : Int
  name : String
  address : String
  phone : String
  email : String
  last_visit_date : Option String
  last_visit_status : Option String
  last_visit_id : Option Int
  has_pending_visit : Bool

def optStrJ : Option String → JVal
  | some s => .str s
  | none => .null

def optIntJ : Option Int → JVal
  | some n => .num n
  | none => .null

def detailsJ : Option PharmDetails → JVal
  | none => .null
  | some d =>
      .obj [("id", .num d.id), ("name", .str d.name), ("address", .str d.address),
        ("phone", .str d.phone), ("email", .str d.email),
        ("last_visit_date", optStrJ d.last_visit_date),
        ("last_visit_status", optStrJ d.last_visit_status),
        ("last_visit_id", optIntJ d.last_visit_id),
        ("has_pending_visit", .bool d.has_pending_visit)]

/-- `SmartResponseEngine._get_pharmacy_details`: `none` when the pharmacy
does not exist (`Pharmacy.DoesNotExist` is caught); other database errors
propagate. -/
def getPharmacyDetails (env : SREnv) (pid : JVal) : Except PyErr (Option PharmDetails) :=
  match env.pharmacyGet pid with
  | .error e => .error e
  | .ok none => .ok none
  | .ok (some ph) =>
      match env.lastVisitOf ph.id with
      | .error e => .error e
      | .ok lv =>
          .ok (some ⟨ph.id, ph.name, ph.address, ph.phone, ph.email,
            lv.map VisitRow.date, lv.map VisitRow.statusDisplay, lv.map VisitRow.id,
            match lv with | some v => v.status = "PENDING" | none => false⟩)

/-- The dict built by `_get_visit_options` (the `DoesNotExist` fallback
dict omits `pending_visit_id`, which no caller reads). -/
structure VisitOpts where
  pharmacy_name : String
  can_create_visit : Bool
  has_pending_visit : Bool
  pending_visit_id : Option Int
  recent_visits : List VisitRow

/-- `SmartResponseEngine._get_visit_options`, with the queryset of the
last three visits modelled as its evaluated row list. -/
def getVisitOptions (env : SREnv) (pid : JVal) : Except PyErr VisitOpts :=
  match env.pharmacyGet pid with
  | .error e => .error e
  | .ok none => .ok ⟨"Desconocida", false, false, none, []⟩
  | .ok (some ph) =>
      match env.recentVisitsOf ph.id with
      | .error e => .error e
      | .ok visits =>
          .ok ⟨ph.name,
            (visits.filter fun v => v.status = "PENDING").isEmpty,
            !(visits.filter fun v => v.status = "PENDING").isEmpty,
            ((visits.filter fun v => v.status = "PENDING").head?).map VisitRow.id,
            visits⟩

/-- The `recent_visits` entry dicts stored into the session data. -/
def visitJ (v : VisitRow) : JVal :=
  .obj [("id", .num v.id), ("date", .str v.date), ("status", .str v.statusDisplay)]

/- #### The state handlers of `process_message` -/

/-- `DEFAULT_RESPONSES['unknown']`. -/
def UNKNOWN_REPLY : String :=
  "Lo siento, no he entendido completamente tu mensaje. ¿Podrías ser más específico? Puedes preguntar sobre farmacias, visitas o solicitar ayuda escribiendo \x27ayuda\x27."

/-- `DEFAULT_RESPONSES['error']`. -/
def ERROR_REPLY : String :=
  "Lo siento, ha ocurrido un error procesando tu mensaje. Por favor, inténtalo de nuevo o escribe \x27ayuda\x27 para ver las opciones disponibles."

def HELP_REPLY : String :=
  "Puedo ayudarte con lo siguiente:\n- Buscar información de farmacias (ej: \x27farmacia centro\x27)\n- Consultar tus visitas a farmacias (ej: \x27visitas recientes\x27)\n- Registrar feedback de visitas (ej: \x27quiero dejar feedback\x27)\n- Generar reportes de visita (ej: \x27generar informe\x27)\n\n¿Con qué necesitas ayuda hoy?"

/-- The canned decline reply of the `READY_FOR_REPORT` state. -/
def DECLINE_REPLY : String :=
  "Entiendo que no deseas generar un informe ahora. ¿En qué más puedo ayudarte?"

/-- The sentinel that delegates report generation to GPT. -/
def GPT_SENTINEL : String := "__USE_GPT__"

def INVALID_OPTION : String :=
  "Por favor selecciona una opción válida (1-4) o escribe \x27salir\x27 para volver al inicio."

def NUMBER_PROMPT : String :=
  "Por favor, selecciona un número válido de la lista de farmacias."

/-- The enumerated pharmacy lines of the search replies. -/
def pharmLines : Nat → List PharmInfo → String
  | _, [] => ""
  | i, p :: ps =>
      String.mk (natChars i) ++ ". " ++ p.name ++ " - " ++ p.address ++ "\n" ++
        pharmLines (i + 1) ps

/-- The enumerated visit lines of the recent-visits reply. -/
def visitLines : Nat → List VisitRow → String
  | _, [] => ""
  | i, v :: vs =>
      String.mk (natChars i) ++ ". " ++ v.date ++ " - " ++ v.statusDisplay ++ "\n" ++
        visitLines (i + 1) vs

/-- Rendering of an optional string in an f-string (`None` prints as
such). -/
def optDisplay : Option String → String
  | some s => s
  | none => "None"

/-- The `INITIAL` state branch (lines 344-370): only the three intents
are handled; anything else falls through to the default reply. -/
def handleInitial (env : SREnv) (message_text intent : String) (log : List Msg) :
    Except PyErr (Option String) × List Msg :=
  if intent = "pharmacy_search" then
    match searchPharmacy env message_text with
    | .error e => (.error e, log)
    | .ok pharmacies =>
        if pharmacies.isEmpty then
          (.ok (some "No encontré farmacias con ese nombre o dirección. Por favor, intenta con otro término de búsqueda más específico."), log)
        else
          (.ok (some ("Encontré las siguientes farmacias:\n\n" ++ pharmLines 1 pharmacies ++
              "\nPor favor, responde con el número de la farmacia que te interesa, o escribe \x27buscar\x27 seguido del nombre para realizar otra búsqueda.")),
            saveSessionData (saveSessionState log "awaiting_pharmacy")
              (.obj [("pharmacies", .arr (pharmacies.map pharmInfoJ))]))
  else if intent = "visit_info" then
    (.ok (some "Para consultar información de visitas, primero necesito saber a qué farmacia te refieres. Por favor, búscala escribiendo \x27farmacia\x27 seguido del nombre."), log)
  else if intent = "feedback" then
    (.ok (some "Para dejar feedback de una visita, primero necesito saber a qué farmacia te refieres. Por favor, búscala escribiendo \x27farmacia\x27 seguido del nombre."), log)
  else (.ok none, log)

/-- Reply formatting of the pharmacy-selection branch (lines 387-401).
It runs after both session writes; `pharmacy` is a decoded JSON value, so
its subscripts can raise, and a `None` `pharmacy_details` raises
`TypeError` at `pharmacy_details['last_visit_date']`. -/
def selectedReply (pharmacy : JVal) (details : Option PharmDetails) (log2 : List Msg) :
    Except PyErr (Option String) × List Msg :=
  match pySubscript "name" pharmacy with
  | .error e => (.error e, log2)
  | .ok nm =>
      match pySubscript "address" pharmacy with
      | .error e => (.error e, log2)
      | .ok addr =>
          match details with
          | none => (.error .typeError, log2)
          | some d =>
              (.ok (some ("Has seleccionado: " ++ pyStrOf nm ++ "\n" ++
                "Dirección: " ++ pyStrOf addr ++ "\n" ++
                (match d.last_visit_date with
                 | some dt =>
                     if dt.toList.isEmpty then "No hay visitas previas registradas.\n\n"
                     else "Última visita: " ++ dt ++ " - " ++ optDisplay d.last_visit_status ++ "\n\n"
                 | none => "No hay visitas previas registradas.\n\n") ++
                "¿Qué deseas hacer?\n" ++
                "1. Registrar una nueva visita\n" ++
                "2. Consultar visitas anteriores\n" ++
                "3. Dejar feedback\n" ++
                "4. Generar informe")), log2)

/-- The `AWAITING_PHARMACY` state branch (lines 373-423). -/
def handleAwaitingPharmacy (env : SREnv) (message_text : String) (data : JVal) (log : List Msg) :
    Except PyErr (Option String) × List Msg :=
  if pyIsDigit message_text then
    match pyIn "pharmacies" data with
    | .error e => (.error e, log)
    | .ok b =>
        if b then
          match pySubscript "pharmacies" data with
          | .error e => (.error e, log)
          | .ok phList =>
              match pyLen phList with
              | .error e => (.error e, log)
              | .ok n =>
                  if 1 ≤ (Int.ofNat (pyInt message_text)) ∧ (Int.ofNat (pyInt message_text)) ≤ n then
                    match pyIndex (Int.ofNat (pyInt message_text) - 1) phList with
                    | .error e => (.error e, log)
                    | .ok pharmacy =>
                        match pySubscript "id" pharmacy with
                        | .error e => (.error e, log)
                        | .ok pid =>
                            match getPharmacyDetails env pid with
                            | .error e => (.error e, log)
                            | .ok details =>
                                selectedReply pharmacy details
                                  (saveSessionData (saveSessionState log "pharmacy_selected")
                                    (.obj [("selected_pharmacy", detailsJ details)]))
                  else (.ok (some NUMBER_PROMPT), log)
        else (.ok (some NUMBER_PROMPT), log)
  else if "buscar".toList.isPrefixOf (pyLower message_text).toList then
    if 3 ≤ (pyStripList (message_text.toList.drop 6)).length then
      match searchPharmacy env (String.mk (pyStripList (message_text.toList.drop 6))) with
      | .error e => (.error e, log)
      | .ok pharmacies =>
          if pharmacies.isEmpty then
            (.ok (some "No encontré farmacias con ese nombre o dirección. Por favor, intenta con otro término de búsqueda."), log)
          else
            (.ok (some ("Encontré las siguientes farmacias:\n\n" ++ pharmLines 1 pharmacies ++
                "\nPor favor, responde con el número de la farmacia que te interesa.")),
              saveSessionData log (.obj [("pharmacies", .arr (pharmacies.map pharmInfoJ))]))
    else (.ok (some "Por favor, proporciona al menos 3 caracteres para la búsqueda."), log)
  else (.ok none, log)

/-- The `PHARMACY_SELECTED` state branch (lines 426-493): it always
produces a reply (the trailing option prompt) unless an exception
escapes. -/
def handlePharmacySelected (env : SREnv) (message_text : String) (data : JVal) (log : List Msg) :
    Except PyErr String × List Msg :=
  if pyIsDigit message_text then
    match pyDictGet "selected_pharmacy" (.obj []) data with
    | .error e => (.error e, log)
    | .ok pharmacy =>
        if Int.ofNat (pyInt message_text) = 1 then
          match pyDictGet "has_pending_visit" .null pharmacy with
          | .error e => (.error e, log)
          | .ok hp =>
              if pyTruthy hp then
                match pyDictGet "last_visit_id" .null pharmacy with
                | .error e => (.error e, log)
                | .ok vid =>
                    (.ok ("Ya tienes una visita pendiente para esta farmacia. Puedes acceder a ella aquí: /visits/" ++ pyStrOf vid ++ "/"), log)
              else
                match pyDictGet "id" .null pharmacy with
                | .error e => (.error e, log)
                | .ok pid =>
                    match env.createVisit pid with
                    | .error e => (.error e, log)
                    | .ok newId =>
                        match pyDictGet "name" .null pharmacy with
                        | .error e => (.error e,
                            saveSessionData (saveSessionState log "awaiting_visit_action")
                              (.obj [("selected_pharmacy", pharmacy),
                                ("current_visit_id", .num newId)]))
                        | .ok nm =>
                            (.ok ("He creado una nueva visita para la farmacia " ++ pyStrOf nm ++ ". Puedes completar los detalles en: /visits/" ++ String.mk (encodeInt newId) ++ "/"),
                              saveSessionData (saveSessionState log "awaiting_visit_action")
                                (.obj [("selected_pharmacy", pharmacy),
                                  ("current_visit_id", .num newId)]))
        else if Int.ofNat (pyInt message_text) = 2 then
          match pyIn "id" pharmacy with
          | .error e => (.error e, log)
          | .ok b =>
              if b then
                match pySubscript "id" pharmacy with
                | .error e => (.error e, log)
                | .ok pid =>
                    match getVisitOptions env pid with
                    | .error e => (.error e, log)
                    | .ok vo =>
                        if vo.recent_visits.isEmpty then
                          (.ok ("No hay visitas registradas para " ++ vo.pharmacy_name ++ "."), log)
                        else
                          (.ok ("Visitas recientes a " ++ vo.pharmacy_name ++ ":\n\n" ++
                            visitLines 1 vo.recent_visits), log)
              else (.ok INVALID_OPTION, log)
        else if Int.ofNat (pyInt message_text) = 3 then
          match pyDictGet "has_pending_visit" .null pharmacy with
          | .error e => (.error e, log)
          | .ok hp =>
              if pyTruthy hp then
                match pyDictGet "last_visit_id" .null pharmacy with
                | .error e => (.error e, log)
                | .ok vid =>
                    (.ok "Puedes dejar feedback para la visita pendiente. ¿Prefieres feedback en texto o audio? Responde \x27texto\x27 o \x27audio\x27.",
                      saveSessionData (saveSessionState log "collecting_feedback")
                        (.obj [("selected_pharmacy", pharmacy), ("feedback_visit_id", vid)]))
              else (.ok "No hay visitas pendientes para dejar feedback. Primero debes registrar una visita.", log)
        else if Int.ofNat (pyInt message_text) = 4 then
          match pyIn "id" pharmacy with
          | .error e => (.error e, log)
          | .ok b =>
              if b then
                match pySubscript "id" pharmacy with
                | .error e => (.error e, log)
                | .ok pid =>
                    match getVisitOptions env pid with
                    | .error e => (.error e, log)
                    | .ok vo =>
                        if vo.recent_visits.isEmpty then
                          (.ok "No hay suficientes datos de visitas para generar un informe completo.", log)
                        else
                          (.ok "Tenemos suficiente información para generar un informe usando GPT. ¿Deseas continuar con la generación del informe?",
                            saveSessionData (saveSessionState log "ready_for_report")
                              (.obj [("selected_pharmacy", pharmacy),
                                ("visits", .arr (vo.recent_visits.map visitJ))]))
              else (.ok INVALID_OPTION, log)
        else (.ok INVALID_OPTION, log)
  else (.ok INVALID_OPTION, log)

/-- The `COLLECTING_FEEDBACK` state branch (lines 496-534). -/
def handleCollectingFeedback (env : SREnv) (message_text : String) (data : JVal) (log : List Msg) :
    Except PyErr (Option String) × List Msg :=
  match pyDictGet "feedback_visit_id" .null data with
  | .error e => (.error e, log)
  | .ok vid =>
      if !pyTruthy vid then
        (.ok (some "Ha ocurrido un error con la sesión. Por favor, comienza de nuevo."),
          saveSessionState log "initial")
      else if pyContains "texto" (pyLower message_text) then
        match pyMerge "feedback_type" (.str "TEXT") data with
        | .error e => (.error e, log)
        | .ok d2 =>
            (.ok (some "Por favor, escribe tu feedback a continuación:"), saveSessionData log d2)
      else if pyContains "audio" (pyLower message_text) then
        match pyMerge "feedback_type" (.str "AUDIO") data with
        | .error e => (.error e, log)
        | .ok d2 =>
            (.ok (some "Por favor, adjunta tu archivo de audio o utiliza el botón de grabación."), saveSessionData log d2)
      else
        match pyIn "feedback_type" data with
        | .error e => (.error e, log)
        | .ok b =>
            if b then
              match pySubscript "feedback_type" data with
              | .error e => (.error e, log)
              | .ok ft =>
                  if (match ft with | .str t => t == "TEXT" | _ => false) then
                    match env.getVisit vid with
                    | .error e => (.error e, log)
                    | .ok none =>
                        (.ok (some "Lo siento, no se encontró la visita. Por favor, intenta de nuevo."), log)
                    | .ok (some v) =>
                        match env.createFeedback v.id message_text with
                        | .error e => (.error e, log)
                        | .ok _ =>
                            (.ok (some "¡Gracias por tu feedback! ¿Deseas generar un informe de esta visita ahora?"),
                              saveSessionState log "ready_for_report")
                  else (.ok none, log)
            else (.ok none, log)

/-- The affirmative check of the `READY_FOR_REPORT` state (line 539): a
plain substring test on the lower-cased message. -/
def reportAffirm (message_text : String) : Bool :=
  ["si", "sí", "generar", "continue", "ok"].any fun w => pyContains w (pyLower message_text)

/-- The state dispatch of `process_message` (lines 344-544): a state that
matches no branch, and a matching branch that returns nothing, both fall
through to the default reply (`none`). -/
def stateDispatch (env : SREnv) (message_text intent st : String) (data : JVal)
    (log : List Msg) : Except PyErr (Option String) × List Msg :=
  if st = "initial" then handleInitial env message_text intent log
  else if st = "awaiting_pharmacy" then handleAwaitingPharmacy env message_text data log
  else if st = "pharmacy_selected" then
    match handlePharmacySelected env message_text data log with
    | (.error e, lg) => (.error e, lg)
    | (.ok r, lg) => (.ok (some r), lg)
  else if st = "collecting_feedback" then handleCollectingFeedback env message_text data log
  else if st = "ready_for_report" then
    (.ok (some (if reportAffirm message_text then GPT_SENTINEL else DECLINE_REPLY)), log)
  else (.ok none, log)

/-- The body of `SmartResponseEngine.process_message` (the `try` block,
lines 323-548): greeting and help short-circuit before any state
handling. -/
def processBody (env : SREnv) (message_text st : String) (data : JVal) (log : List Msg) :
    Except PyErr String × List Msg :=
  if detectIntent message_text = "greeting" then
    (.ok (match env.delegateName with
      | some nm => "Hola " ++ nm ++ ", ¿en qué puedo ayudarte hoy? Puedes buscar una farmacia, consultar visitas previas, o dejar feedback sobre una visita."
      | none => "Hola, ¿en qué puedo ayudarte hoy? Por favor, identifícate para continuar."), log)
  else if detectIntent message_text = "help" then (.ok HELP_REPLY, log)
  else
    match stateDispatch env message_text (detectIntent message_text) st data log with
    | (.ok (some r), lg) => (.ok r, lg)
    | (.ok none, lg) => (.ok UNKNOWN_REPLY, lg)
    | (.error e, lg) => (.error e, lg)

/-- `SmartResponseEngine.process_message`: state and data are read from
the log (as `__init__` does), and the catch-all `except` turns any
exception into `DEFAULT_RESPONSES['error']`, keeping whatever messages
the body already wrote. -/
def processMessage (env : SREnv) (message_text : String) (log : List Msg) :
    String × List Msg :=
  match processBody env message_text (getSessionState log) (getSessionData log) log with
  | (.ok r, lg) => (r, lg)
  | (.error _, lg) => (ERROR_REPLY, lg)

/- ### The `process_message` Celery task (`tasks.py`)

The message table is a list of rows; `order_by('-timestamp').first()` is
modelled as the first row (in table order) carrying the maximal
timestamp, which is what a stable descending sort yields.  The
`ChatProcessor` pipeline and the conversation save are fallible
collaborators; the WhatsApp send is omitted because its `try/except
pass` swallows any failure without touching the store. -/

/-- A row of the `Message` table as the task reads and writes it. -/
structure MRow where
  id : Int
  conversation : Int
  content : String
  direction : String
  timestamp : Int
  ai_processed : Bool
deriving DecidableEq

/-- The message table plus the id and clock used for fresh rows. -/
structure TaskStore where
  rows : List MRow
  nextId : Int
  now : Int
deriving DecidableEq

structure TaskEnv where
  pipeline : MRow → Except PyErr (Bool × String)
  convTouch : Int → Except PyErr Unit

/-- `Message.objects.get(id=...)`: `none` is `Message.DoesNotExist`. -/
def getById (i : Int) (rows : List MRow) : Option MRow :=
  rows.find? fun m => m.id == i

def PROCESSING_PLACEHOLDER : String := "Procesando respuesta..."

/-- The filter of the placeholder query (lines 31-35). -/
def isPlaceholderFor (conv : Int) (m : MRow) : Bool :=
  m.conversation == conv && m.direction == "OUT" && m.content == PROCESSING_PLACEHOLDER

/-- First row with maximal timestamp, i.e. `order_by('-timestamp').first()`
of a stable descending sort. -/
def maxByTs : List MRow → Option MRow
  | [] => none
  | r :: rs =>
      match maxByTs rs with
      | none => some r
      | some b => some (if r.timestamp < b.timestamp then b else r)

def latestPlaceholder (conv : Int) (rows : List MRow) : Option MRow :=
  maxByTs (rows.filter (isPlaceholderFor conv))

/-- `placeholder.content = ...; placeholder.ai_processed = True;
placeholder.save()`. -/
def updateMsg (i : Int) (content : String) (rows : List MRow) : List MRow :=
  rows.map fun m =>
    if m.id == i then { m with content := content, ai_processed := true } else m

/-- `ChatProcessor.create_response_message`: a fresh outbound row, marked
processed. -/
def createResponseMessage (st : TaskStore) (conv : Int) (content : String) :
    MRow × TaskStore :=
  (⟨st.nextId, conv, content, "OUT", st.now, true⟩,
    ⟨st.rows ++ [⟨st.nextId, conv, content, "OUT", st.now, true⟩],
      st.nextId + 1, st.now + 1⟩)

/- #### WhatsApp formatting (`prepare_message_for_whatsapp`) -/

/-- Flush a pending run of newlines: `re.sub(r'\n{3,}', '\n\n', ...)`
rewrites every maximal run of three or more. -/
def collapseEmit (k : Nat) : List Char :=
  if 3 ≤ k then ['\n', '\n'] else List.replicate k '\n'

def collapseNlGo (k : Nat) : List Char → List Char
  | [] => collapseEmit k
  | c :: cs =>
      if c = '\n' then collapseNlGo (k + 1) cs
      else collapseEmit k ++ c :: collapseNlGo 0 cs

/-- Earliest closing `dd` for the lazy group of `\*\*(.*?)\*\*` (or the
`__` variant): `.` does not cross a newline.  Returns the group and the
remainder after the closing pair. -/
def findCloseAt (d : Char) : List Char → Option (List Char × List Char)
  | [] => none
  | c :: cs =>
      if c = '\n' then none
      else if c = d then
        match cs with
        | c2 :: cs2 =>
            if c2 = d then some ([], cs2)
            else
              match findCloseAt d cs with
              | some (inn, rest) => some (c :: inn, rest)
              | none => none
        | [] => none
      else
        match findCloseAt d cs with
        | some (inn, rest) => some (c :: inn, rest)
        | none => none

/-- `re.sub(r'\*\*(.*?)\*\*', r'*\1*', ...)` (and the `__` variant): on a
failed match the scan advances one character. -/
def subPairGo (d : Char) : Nat → List Char → List Char
  | 0, s => s
  | _ + 1, [] => []
  | f + 1, c :: cs =>
      if c = d then
        match cs with
        | c2 :: cs2 =>
            if c2 = d then
              match findCloseAt d cs2 with
              | some (inn, rest) => d :: (inn ++ d :: subPairGo d f rest)
              | none => c :: subPairGo d f cs
            else c :: subPairGo d f cs
        | [] => [c]
      else c :: subPairGo d f cs

/-- `ChatProcessor.prepare_message_for_whatsapp`: truncate past 4000
characters, collapse newline runs, then rewrite the bold and italic
markers. -/
def prepareWhatsApp (content : String) : String :=
  let l := content.toList
  let l1 := if 4000 < l.length then l.take 3997 ++ "...".toList else l
  let l2 := collapseNlGo 0 l1
  let l3 := subPairGo '*' (l2.length + 1) l2
  let l4 := subPairGo '_' (l3.length + 1) l3
  String.mk l4

/- #### The task itself -/

/-- The apology written when the pipeline reports failure (line 48). -/
def PROC_ERROR : String :=
  "Lo siento, ocurrió un error al procesar tu mensaje. Por favor, intenta de nuevo en unos momentos."

/-- The apology of the inner `except` (line 116). -/
def FRIENDLY_FAIL : String :=
  "Lo siento, no pude procesar tu mensaje en este momento. Por favor, intenta nuevamente."

/-- The apology of the outer `except` (line 139). -/
def OUTER_ERROR : String :=
  "Lo siento, ocurrió un error al procesar tu mensaje. Por favor, intenta de nuevo."

inductive TaskOutcome where
  | done (status : String)
  | retryAt (countdown : Nat)
  | failed
deriving DecidableEq

/-- `raise self.retry(countdown=...)` under `max_retries=3`: a `Retry`
while retries remain, the terminal failure afterwards. -/
def celeryRetry (retries countdown : Nat) : TaskOutcome :=
  if retries < 3 then .retryAt countdown else .failed

/-- The formatting step of line 64-67. -/
def formattedResp (source response : String) : String :=
  if source = "whatsapp" then prepareWhatsApp response else response

/-- Lines 69-82: write the response into the placeholder, or create a
fresh outbound message. -/
def writeResponse (source response : String) (message : MRow)
    (placeholder : Option MRow) (st : TaskStore) : TaskStore :=
  match placeholder with
  | some ph => { st with rows := updateMsg ph.id (formattedResp source response) st.rows }
  | none => (createResponseMessage st message.conversation (formattedResp source response)).2

/-- The inner `try` block (lines 40-110). -/
def taskInner (env : TaskEnv) (source : String) (msgId : Int) (message : MRow)
    (placeholder : Option MRow) (st : TaskStore) : Except PyErr String × TaskStore :=
  match env.pipeline message with
  | .error e => (.error e, st)
  | .ok (success, response) =>
      if success then
        match writeResponse source response message placeholder st with
        | st1 =>
            match env.convTouch message.conversation with
            | .error e => (.error e, st1)
            | .ok _ =>
                (.ok ("Successfully processed message " ++ String.mk (encodeInt msgId) ++
                  " from " ++ source), st1)
      else
        match placeholder with
        | some ph => (.error .runtimeError, { st with rows := updateMsg ph.id PROC_ERROR st.rows })
        | none => (.error .runtimeError, (createResponseMessage st message.conversation PROC_ERROR).2)

/-- The placeholder lookup plus the inner `try/except` (lines 30-119):
on any exception the placeholder, when present, is overwritten with the
friendly apology before the exception is re-raised. -/
def taskBody (env : TaskEnv) (source : String) (msgId : Int) (message : MRow)
    (st : TaskStore) : Except PyErr String × TaskStore :=
  match latestPlaceholder message.conversation st.rows with
  | some ph =>
      match taskInner env source msgId message (some ph) st with
      | (.ok s, st1) => (.ok s, st1)
      | (.error e, st1) => (.error e, { st1 with rows := updateMsg ph.id FRIENDLY_FAIL st1.rows })
  | none => taskInner env source msgId message none st

/-- `tasks.process_message`: the whole task, including the
`Message.DoesNotExist` retry (lines 121-123) and the catch-all retry with
its best-effort placeholder update (lines 125-145). -/
def taskRun (env : TaskEnv) (msgId : Int) (source : String) (retries : Nat)
    (st : TaskStore) : TaskOutcome × TaskStore :=
  match getById msgId st.rows with
  | none => (celeryRetry retries (2 ^ retries), st)
  | some message =>
      match taskBody env source msgId message st with
      | (.ok s, st1) => (.done s, st1)
      | (.error _, st1) =>
          (celeryRetry retries (2 ^ retries),
            match getById msgId st1.rows with
            | none => st1
            | some m2 =>
                match latestPlaceholder m2.conversation st1.rows with
                | some ph => { st1 with rows := updateMsg ph.id OUTER_ERROR st1.rows }
                | none => st1)

/- #### Write-balance bookkeeping and concrete fixtures -/

/-- Number of `__STATE__:` messages in a log segment. -/
def stateCount (l : List Msg) : Nat :=
  (l.filter isStateMsg).length

/-- Number of `__DATA__:` messages in a log segment. -/
def dataCount (l : List Msg) : Nat :=
  (l.filter isDataMsg).length

/-- An engine step is well behaved on `log` when it only appends
messages, and any escaping exception leaves as many new `__STATE__`
writes as `__DATA__` writes. -/
def WB {α : Type} (log : List Msg) (out : Except PyErr α × List Msg) : Prop :=
  ∃ tail, out.2 = log ++ tail ∧
    (∀ e, out.1 = Except.error e → stateCount tail = dataCount tail)

/-- An engine environment whose every database collaborator raises, and
with no delegate on the conversation. -/
def envFail : SREnv :=
  ⟨none, fun _ => .error .typeError, fun _ => .error .typeError,
    fun _ => .error .typeError, fun _ => .error .typeError,
    fun _ => .error .typeError, fun _ => .error .typeError,
    fun _ _ => .error .typeError⟩

/-- A log whose session state is `READY_FOR_REPORT`. -/
def logReady : List Msg :=
  [⟨"__STATE__:ready_for_report", "OUT", true⟩]

/-- A task environment whose pipeline succeeds with a fixed response. -/
def envTask : TaskEnv :=
  ⟨fun _ => .ok (true, "respuesta final"), fun _ => .ok ()⟩

/-- A store with one incoming message and one pending placeholder. -/
def stC3 : TaskStore :=
  ⟨[⟨1, 7, "hola", "IN", 10, false⟩,
    ⟨2, 7, PROCESSING_PLACEHOLDER, "OUT", 11, false⟩], 3, 12⟩

def stEmpty : TaskStore := ⟨[], 0, 0⟩

/- ### Properties of the SequenceMatcher embedding -/

theorem cpl_le_left (a : List Char) : ∀ b, cpl a b ≤ a.length := by
  induction a with
  | nil => intro b; cases b <;> simp [cpl]
  | cons x xs ih =>
      intro b
      cases b with
      | nil => simp [cpl]
      | cons y ys =>
          by_cases h : x = y
          · simpa [cpl, h] using Nat.succ_le_succ (ih ys)
          · simp [cpl, h]

theorem cpl_le_right (a : List Char) : ∀ b, cpl a b ≤ b.length := by
  induction a with
  | nil => intro b; cases b <;> simp [cpl]
  | cons x xs ih =>
      intro b
      cases b with
      | nil => simp [cpl]
      | cons y ys =>
          by_cases h : x = y
          · simpa [cpl, h] using Nat.succ_le_succ (ih ys)
          · simp [cpl, h]

theorem cpl_self (a : List Char) : cpl a a = a.length := by
  induction a with
  | nil => rfl
  | cons x xs ih => simp [cpl, ih]

theorem cpl_take (a : List Char) : ∀ b, a.take (cpl a b) = b.take (cpl a b) := by
  induction a with
  | nil => intro b; cases b <;> simp [cpl]
  | cons x xs ih =>
      intro b
      cases b with
      | nil => simp [cpl]
      | cons y ys =>
          by_cases h : x = y
          · simp [cpl, h, ih ys]
          · simp [cpl, h]

theorem smPick_eq_or_mem (l : List (Nat × Nat × Nat)) :
    ∀ best, smPick best l = best ∨ smPick best l ∈ l := by
  induction l with
  | nil => intro best; left; rfl
  | cons c cs ih =>
      intro best
      by_cases hb : best.2.2 < c.2.2
      · rcases ih c with h | h
        · right
          rw [smPick, if_pos hb, h]
          exact List.mem_cons_self c cs
        · right
          rw [smPick, if_pos hb]
          exact List.mem_cons_of_mem _ h
      · rcases ih best with h | h
        · left
          rw [smPick, if_neg hb, h]
        · right
          rw [smPick, if_neg hb]
          exact List.mem_cons_of_mem _ h

theorem le_smPick (l : List (Nat × Nat × Nat)) :
    ∀ best, best.2.2 ≤ (smPick best l).2.2 := by
  induction l with
  | nil => intro best; exact le_rfl
  | cons c cs ih =>
      intro best
      by_cases hb : best.2.2 < c.2.2
      · rw [smPick, if_pos hb]
        exact le_trans (le_of_lt hb) (ih c)
      · rw [smPick, if_neg hb]
        exact ih best

theorem mem_le_smPick (l : List (Nat × Nat × Nat)) :
    ∀ best, ∀ x ∈ l, x.2.2 ≤ (smPick best l).2.2 := by
  induction l with
  | nil => intro best x hx; cases hx
  | cons c cs ih =>
      intro best x hx
      rcases List.mem_cons.mp hx with rfl | hx
      · by_cases hb : best.2.2 < x.2.2
        · rw [smPick, if_pos hb]
          exact le_smPick cs x
        · rw [smPick, if_neg hb]
          exact le_trans (not_lt.mp hb) (le_smPick cs best)
      · by_cases hb : best.2.2 < c.2.2
        · rw [smPick, if_pos hb]
          exact ih c x hx
        · rw [smPick, if_neg hb]
          exact ih best x hx

theorem mem_smCandidates {a b : List Char} {c : Nat × Nat × Nat}
    (hc : c ∈ smCandidates a b) :
    c.1 < a.length ∧ c.2.1 < b.length ∧ c.2.2 = cpl (a.drop c.1) (b.drop c.2.1) := by
  simp only [smCandidates, List.mem_flatMap, List.mem_map, List.mem_range] at hc
  obtain ⟨i, hi, j, hj, rfl⟩ := hc
  exact ⟨hi, hj, rfl⟩

theorem smCandidates_mem {a b : List Char} {i j : Nat}
    (hi : i < a.length) (hj : j < b.length) :
    (i, j, cpl (a.drop i) (b.drop j)) ∈ smCandidates a b := by
  simp only [smCandidates, List.mem_flatMap, List.mem_map, List.mem_range]
  exact ⟨i, hi, j, hj, rfl⟩

theorem findBestBlock_max {a b : List Char} {c : Nat × Nat × Nat}
    (hc : c ∈ smCandidates a b) : c.2.2 ≤ (findBestBlock a b).2.2 :=
  mem_le_smPick _ _ c hc

theorem findBestBlock_cases (a b : List Char) :
    findBestBlock a b = (0, 0, 0) ∨ findBestBlock a b ∈ smCandidates a b := by
  unfold findBestBlock
  exact smPick_eq_or_mem (smCandidates a b) (0, 0, 0)

theorem findBestBlock_bounds {a b : List Char}
    (h : (findBestBlock a b).2.2 ≠ 0) :
    (findBestBlock a b).1 + (findBestBlock a b).2.2 ≤ a.length ∧
      (findBestBlock a b).2.1 + (findBestBlock a b).2.2 ≤ b.length := by
  rcases findBestBlock_cases a b with h0 | hm
  · exact absurd (congrArg (fun t => t.2.2) h0) h
  · obtain ⟨hi, hj, hk⟩ := mem_smCandidates hm
    constructor
    · have h1 := cpl_le_left (a.drop (findBestBlock a b).1) (b.drop (findBestBlock a b).2.1)
      rw [List.length_drop] at h1
      omega
    · have h1 := cpl_le_right (a.drop (findBestBlock a b).1) (b.drop (findBestBlock a b).2.1)
      rw [List.length_drop] at h1
      omega

theorem findBestBlock_self {a : List Char} (ha : a ≠ []) :
    findBestBlock a a = (0, 0, a.length) := by
  have hlen : 0 < a.length := List.length_pos.mpr ha
  have hmem : ((0 : Nat), (0 : Nat), cpl a a) ∈ smCandidates a a := by
    simpa using smCandidates_mem hlen hlen
  have hge : a.length ≤ (findBestBlock a a).2.2 := by
    have := findBestBlock_max hmem
    simpa [cpl_self] using this
  have hne : (findBestBlock a a).2.2 ≠ 0 := by omega
  obtain ⟨h1, h2⟩ := findBestBlock_bounds hne
  have hi0 : (findBestBlock a a).1 = 0 := by omega
  have hj0 : (findBestBlock a a).2.1 = 0 := by omega
  have hk : (findBestBlock a a).2.2 = a.length := by omega
  exact Prod.ext hi0 (Prod.ext hj0 hk)

theorem matchTotalF_nil_nil (f : Nat) : matchTotalF f [] [] = 0 := by
  cases f with
  | zero => rfl
  | succ f => rfl

theorem matchTotalF_succ (f : Nat) (a b : List Char) :
    matchTotalF (f + 1) a b =
      if (findBestBlock a b).2.2 = 0 then 0
      else
        matchTotalF f (a.take (findBestBlock a b).1) (b.take (findBestBlock a b).2.1) +
          (findBestBlock a b).2.2 +
          matchTotalF f (a.drop ((findBestBlock a b).1 + (findBestBlock a b).2.2))
            (b.drop ((findBestBlock a b).2.1 + (findBestBlock a b).2.2)) := rfl

theorem matchTotalF_stable :
    ∀ f a b, a.length + b.length ≤ f → matchTotalF (f + 1) a b = matchTotalF f a b := by
  intro f
  induction f with
  | zero =>
      intro a b h
      have ha : a = [] := List.length_eq_zero.mp (by omega)
      have hb : b = [] := List.length_eq_zero.mp (by omega)
      subst ha; subst hb
      rfl
  | succ f ih =>
      intro a b h
      rw [matchTotalF_succ (f + 1) a b, matchTotalF_succ f a b]
      by_cases hk : (findBestBlock a b).2.2 = 0
      · rw [if_pos hk, if_pos hk]
      · obtain ⟨hb1, hb2⟩ := findBestBlock_bounds hk
        rw [if_neg hk, if_neg hk]
        have l1 : (a.take (findBestBlock a b).1).length +
            (b.take (findBestBlock a b).2.1).length ≤ f := by
          simp only [List.length_take]
          omega
        have l2 : (a.drop ((findBestBlock a b).1 + (findBestBlock a b).2.2)).length +
            (b.drop ((findBestBlock a b).2.1 + (findBestBlock a b).2.2)).length ≤ f := by
          simp only [List.length_drop]
          omega
        rw [ih _ _ l1, ih _ _ l2]

theorem matchTotalF_eq_of_le :
    ∀ {f a b}, a.length + b.length ≤ f → matchTotalF f a b = matchTotal a b := by
  intro f a b h
  induction f with
  | zero =>
      have ha : a = [] := List.length_eq_zero.mp (by omega)
      have hb : b = [] := List.length_eq_zero.mp (by omega)
      subst ha; subst hb
      rfl
  | succ f ih =>
      rcases Nat.lt_or_ge (a.length + b.length) (f + 1) with hlt | hge
      · rw [matchTotalF_stable f a b (by omega), ih (by omega)]
      · have : a.length + b.length = f + 1 := by omega
        rw [matchTotal, this]

theorem matchTotal_le :
    ∀ n a b, a.length + b.length ≤ n →
      matchTotal a b ≤ a.length ∧ matchTotal a b ≤ b.length := by
  intro n
  induction n with
  | zero =>
      intro a b h
      have ha : a = [] := List.length_eq_zero.mp (by omega)
      have hb : b = [] := List.length_eq_zero.mp (by omega)
      subst ha; subst hb
      exact ⟨le_rfl, le_rfl⟩
  | succ n ih =>
      intro a b h
      have hm : matchTotal a b = matchTotalF (a.length + b.length) a b := rfl
      cases hab : a.length + b.length with
      | zero =>
          have ha : a = [] := List.length_eq_zero.mp (by omega)
          have hb : b = [] := List.length_eq_zero.mp (by omega)
          subst ha; subst hb
          exact ⟨le_rfl, le_rfl⟩
      | succ m =>
          rw [hm, hab, matchTotalF_succ m a b]
          by_cases hk : (findBestBlock a b).2.2 = 0
          · rw [if_pos hk]
            omega
          · obtain ⟨hb1, hb2⟩ := findBestBlock_bounds hk
            rw [if_neg hk]
            have e1 : matchTotalF m (a.take (findBestBlock a b).1)
                (b.take (findBestBlock a b).2.1) =
                matchTotal (a.take (findBestBlock a b).1) (b.take (findBestBlock a b).2.1) := by
              apply matchTotalF_eq_of_le
              simp only [List.length_take]
              omega
            have e2 : matchTotalF m
                (a.drop ((findBestBlock a b).1 + (findBestBlock a b).2.2))
                (b.drop ((findBestBlock a b).2.1 + (findBestBlock a b).2.2)) =
                matchTotal (a.drop ((findBestBlock a b).1 + (findBestBlock a b).2.2))
                  (b.drop ((findBestBlock a b).2.1 + (findBestBlock a b).2.2)) := by
              apply matchTotalF_eq_of_le
              simp only [List.length_drop]
              omega
            rw [e1, e2]
            have s1 := ih (a.take (findBestBlock a b).1) (b.take (findBestBlock a b).2.1)
              (by simp only [List.length_take]; omega)
            have s2 := ih (a.drop ((findBestBlock a b).1 + (findBestBlock a b).2.2))
              (b.drop ((findBestBlock a b).2.1 + (findBestBlock a b).2.2))
              (by simp only [List.length_drop]; omega)
            simp only [List.length_take, List.length_drop] at s1 s2
            omega

theorem matchTotal_le_left (a b : List Char) : matchTotal a b ≤ a.length :=
  (matchTotal_le (a.length + b.length) a b le_rfl).1

theorem matchTotal_le_right (a b : List Char) : matchTotal a b ≤ b.length :=
  (matchTotal_le (a.length + b.length) a b le_rfl).2

theorem matchTotal_self (a : List Char) : matchTotal a a = a.length := by
  cases ha : a with
  | nil => rfl
  | cons x xs =>
      have hne : a ≠ [] := by rw [ha]; exact List.cons_ne_nil x xs
      rw [← ha]
      have hlen : 0 < a.length := List.length_pos.mpr hne
      have hsum : a.length + a.length = (a.length + a.length - 1) + 1 := by omega
      rw [matchTotal, hsum]
      have hbb := findBestBlock_self hne
      have hne0 : a.length ≠ 0 := by omega
      simp [matchTotalF_succ, hbb, hne0, List.drop_length, matchTotalF_nil_nil]

theorem matchTotal_full :
    ∀ n a b, a.length + b.length ≤ n → matchTotal a b = a.length →
      a.length = b.length → a = b := by
  intro n
  induction n with
  | zero =>
      intro a b h _ _
      have ha : a = [] := List.length_eq_zero.mp (by omega)
      have hb : b = [] := List.length_eq_zero.mp (by omega)
      rw [ha, hb]
  | succ n ih =>
      intro a b h hfull hlen
      cases hab : a.length + b.length with
      | zero =>
          have ha : a = [] := List.length_eq_zero.mp (by omega)
          have hb : b = [] := List.length_eq_zero.mp (by omega)
          rw [ha, hb]
      | succ m =>
          have hm : matchTotal a b = matchTotalF (a.length + b.length) a b := rfl
          rw [hm, hab, matchTotalF_succ m a b] at hfull
          by_cases hk : (findBestBlock a b).2.2 = 0
          · rw [if_pos hk] at hfull
            have ha : a = [] := List.length_eq_zero.mp (by omega)
            have hb : b = [] := List.length_eq_zero.mp (by omega)
            rw [ha, hb]
          · obtain ⟨hb1, hb2⟩ := findBestBlock_bounds hk
            rw [if_neg hk] at hfull
            have e1 : matchTotalF m (a.take (findBestBlock a b).1)
                (b.take (findBestBlock a b).2.1) =
                matchTotal (a.take (findBestBlock a b).1) (b.take (findBestBlock a b).2.1) := by
              apply matchTotalF_eq_of_le
              simp only [List.length_take]
              omega
            have e2 : matchTotalF m
                (a.drop ((findBestBlock a b).1 + (findBestBlock a b).2.2))
                (b.drop ((findBestBlock a b).2.1 + (findBestBlock a b).2.2)) =
                matchTotal (a.drop ((findBestBlock a b).1 + (findBestBlock a b).2.2))
                  (b.drop ((findBestBlock a b).2.1 + (findBestBlock a b).2.2)) := by
              apply matchTotalF_eq_of_le
              simp only [List.length_drop]
              omega
            rw [e1, e2] at hfull
            have s1 := matchTotal_le ((a.take (findBestBlock a b).1).length +
                (b.take (findBestBlock a b).2.1).length)
              (a.take (findBestBlock a b).1) (b.take (findBestBlock a b).2.1) le_rfl
            have s2 := matchTotal_le
              ((a.drop ((findBestBlock a b).1 + (findBestBlock a b).2.2)).length +
                (b.drop ((findBestBlock a b).2.1 + (findBestBlock a b).2.2)).length)
              (a.drop ((findBestBlock a b).1 + (findBestBlock a b).2.2))
              (b.drop ((findBestBlock a b).2.1 + (findBestBlock a b).2.2)) le_rfl
            simp only [List.length_take, List.length_drop] at s1 s2
            have hi : (findBestBlock a b).1 = (findBestBlock a b).2.1 := by omega
            have hm1 : matchTotal (a.take (findBestBlock a b).1)
                (b.take (findBestBlock a b).2.1) = (findBestBlock a b).1 := by omega
            have hm2 : matchTotal (a.drop ((findBestBlock a b).1 + (findBestBlock a b).2.2))
                (b.drop ((findBestBlock a b).2.1 + (findBestBlock a b).2.2)) =
                a.length - ((findBestBlock a b).1 + (findBestBlock a b).2.2) := by omega
            have q1 : a.take (findBestBlock a b).1 = b.take (findBestBlock a b).2.1 := by
              refine ih _ _ ?_ ?_ ?_
              · simp only [List.length_take]
                omega
              · rw [hm1]
                simp only [List.length_take]
                omega
              · simp only [List.length_take]
                omega
            have q2 : a.drop ((findBestBlock a b).1 + (findBestBlock a b).2.2) =
                b.drop ((findBestBlock a b).2.1 + (findBestBlock a b).2.2) := by
              refine ih _ _ ?_ ?_ ?_
              · simp only [List.length_drop]
                omega
              · rw [hm2]
                simp only [List.length_drop]
              · simp only [List.length_drop]
                omega
            have hcpl : (findBestBlock a b).2.2 =
                cpl (a.drop (findBestBlock a b).1) (b.drop (findBestBlock a b).2.1) := by
              rcases findBestBlock_cases a b with h0 | hmem
              · exact absurd (congrArg (fun t => t.2.2) h0) hk
              · exact (mem_smCandidates hmem).2.2
            have q3 : (a.drop (findBestBlock a b).1).take (findBestBlock a b).2.2 =
                (b.drop (findBestBlock a b).2.1).take (findBestBlock a b).2.2 := by
              rw [hcpl]
              exact cpl_take _ _
            calc a = a.take (findBestBlock a b).1 ++ a.drop (findBestBlock a b).1 :=
                  (List.take_append_drop _ a).symm
              _ = a.take (findBestBlock a b).1 ++
                  ((a.drop (findBestBlock a b).1).take (findBestBlock a b).2.2 ++
                    (a.drop (findBestBlock a b).1).drop (findBestBlock a b).2.2) := by
                  rw [List.take_append_drop ((findBestBlock a b).2.2)
                    (a.drop (findBestBlock a b).1)]
              _ = b.take (findBestBlock a b).2.1 ++
                  ((b.drop (findBestBlock a b).2.1).take (findBestBlock a b).2.2 ++
                    (b.drop (findBestBlock a b).2.1).drop (findBestBlock a b).2.2) := by
                  rw [q1, q3, List.drop_drop, List.drop_drop, q2]
              _ = b.take (findBestBlock a b).2.1 ++ b.drop (findBestBlock a b).2.1 := by
                  rw [List.take_append_drop]
              _ = b := List.take_append_drop _ b

theorem smRatio_self (a : List Char) : smRatio a a = 1 := by
  by_cases h : a.length + a.length = 0
  · simp [smRatio, h]
  · simp only [smRatio, h, ite_false, if_neg]
    rw [matchTotal_self, Rat.mkRat_eq_div]
    rw [div_eq_one_iff_eq]
    · push_cast
      ring
    · exact_mod_cast h

theorem smRatio_le_one (a b : List Char) : smRatio a b ≤ 1 := by
  by_cases h : a.length + b.length = 0
  · simp [smRatio, h]
  · simp only [smRatio, h, ite_false, if_neg]
    rw [Rat.mkRat_eq_div]
    rw [div_le_one (by positivity)]
    have h1 := matchTotal_le_left a b
    have h2 := matchTotal_le_right a b
    push_cast
    have : 2 * matchTotal a b ≤ a.length + b.length := by omega
    exact_mod_cast this

theorem smRatio_eq_one {a b : List Char} (h : smRatio a b = 1) : a = b := by
  by_cases h0 : a.length + b.length = 0
  · have ha : a = [] := List.length_eq_zero.mp (by omega)
    have hb : b = [] := List.length_eq_zero.mp (by omega)
    rw [ha, hb]
  · simp only [smRatio, h0, ite_false, if_neg] at h
    rw [Rat.mkRat_eq_div, div_eq_one_iff_eq (by exact_mod_cast h0)] at h
    have h2 : 2 * matchTotal a b = a.length + b.length := by exact_mod_cast h
    have h3 := matchTotal_le_left a b
    have h4 := matchTotal_le_right a b
    exact matchTotal_full (a.length + b.length) a b le_rfl (by omega) (by omega)

/- ### Properties of the stable top-score selection -/

theorem pickTop_eq_or_mem (l : List (QuestionRow × ℚ)) :
    ∀ best, pickTop best l = best ∨ pickTop best l ∈ l := by
  induction l with
  | nil => intro best; left; rfl
  | cons c cs ih =>
      intro best
      by_cases hb : best.2 < c.2
      · rcases ih c with h | h
        · right
          rw [pickTop, if_pos hb, h]
          exact List.mem_cons_self c cs
        · right
          rw [pickTop, if_pos hb]
          exact List.mem_cons_of_mem _ h
      · rcases ih best with h | h
        · left
          rw [pickTop, if_neg hb, h]
        · right
          rw [pickTop, if_neg hb]
          exact List.mem_cons_of_mem _ h

theorem le_pickTop (l : List (QuestionRow × ℚ)) :
    ∀ best, best.2 ≤ (pickTop best l).2 := by
  induction l with
  | nil => intro best; exact le_rfl
  | cons c cs ih =>
      intro best
      by_cases hb : best.2 < c.2
      · rw [pickTop, if_pos hb]
        exact le_trans (le_of_lt hb) (ih c)
      · rw [pickTop, if_neg hb]
        exact ih best

theorem mem_le_pickTop (l : List (QuestionRow × ℚ)) :
    ∀ best, ∀ x ∈ l, x.2 ≤ (pickTop best l).2 := by
  induction l with
  | nil => intro best x hx; cases hx
  | cons c cs ih =>
      intro best x hx
      rcases List.mem_cons.mp hx with rfl | hx
      · by_cases hb : best.2 < x.2
        · rw [pickTop, if_pos hb]
          exact le_pickTop cs x
        · rw [pickTop, if_neg hb]
          exact le_trans (not_lt.mp hb) (le_pickTop cs best)
      · by_cases hb : best.2 < c.2
        · rw [pickTop, if_pos hb]
          exact ih c x hx
        · rw [pickTop, if_neg hb]
          exact ih best x hx

theorem topByScore_spec {l : List (QuestionRow × ℚ)} (hl : l ≠ []) :
    ∃ p, topByScore l = some p ∧ p ∈ l ∧ ∀ y ∈ l, y.2 ≤ p.2 := by
  cases l with
  | nil => exact absurd rfl hl
  | cons x xs =>
      refine ⟨pickTop x xs, rfl, ?_, ?_⟩
      · rcases pickTop_eq_or_mem xs x with h | h
        · rw [h]; exact List.mem_cons_self x xs
        · exact List.mem_cons_of_mem _ h
      · intro y hy
        rcases List.mem_cons.mp hy with rfl | hy
        · exact le_pickTop xs y
        · exact mem_le_pickTop xs x y hy

theorem topByScore_mem {l : List (QuestionRow × ℚ)} {p : QuestionRow × ℚ}
    (h : topByScore l = some p) : p ∈ l := by
  cases l with
  | nil => cases h
  | cons x xs =>
      have hp : p = pickTop x xs := by
        simpa [topByScore] using h.symm
      rw [hp]
      rcases pickTop_eq_or_mem xs x with h2 | h2
      · rw [h2]; exact List.mem_cons_self x xs
      · exact List.mem_cons_of_mem _ h2

/- ### JSON round trip: digits and hex -/

theorem hexDigitChar_toNat : ∀ n < 16,
    (hexDigitChar n).toNat = if n < 10 then 48 + n else 87 + n := by decide

theorem hexVal_hexDigitChar : ∀ n < 16, hexVal (hexDigitChar n) = some n := by decide

theorem hexDigitChar_isDigit : ∀ n < 10, (hexDigitChar n).isDigit = true := by decide

theorem digitsToNat_append (l : List Char) (d : Char) :
    digitsToNat (l ++ [d]) = digitsToNat l * 10 + (d.toNat - 48) := by
  simp [digitsToNat, List.foldl_append]

theorem natCharsF_isDigit :
    ∀ fuel n, n ≤ fuel → ∀ c ∈ natCharsF fuel n, c.isDigit = true := by
  intro fuel
  induction fuel with
  | zero => intro n h c hc; cases hc
  | succ fuel ih =>
      intro n h c hc
      by_cases h0 : n = 0
      · rw [natCharsF, if_pos h0] at hc
        cases hc
      · rw [natCharsF, if_neg h0] at hc
        rcases List.mem_append.mp hc with hc | hc
        · exact ih (n / 10) (by omega) c hc
        · have hd : c = hexDigitChar (n % 10) := by simpa using hc
          rw [hd]
          exact hexDigitChar_isDigit (n % 10) (by omega)

theorem natCharsF_val :
    ∀ fuel n, n ≤ fuel → digitsToNat (natCharsF fuel n) = n := by
  intro fuel
  induction fuel with
  | zero =>
      intro n h
      have : n = 0 := by omega
      simp [natCharsF, digitsToNat, this]
  | succ fuel ih =>
      intro n h
      by_cases h0 : n = 0
      · simp [natCharsF, if_pos h0, digitsToNat, h0]
      · rw [natCharsF, if_neg h0, digitsToNat_append, ih (n / 10) (by omega)]
        have h16 : n % 10 < 16 := by omega
        have := hexDigitChar_toNat (n % 10) h16
        rw [if_pos (by omega)] at this
        rw [this]
        omega

theorem natChars_isDigit (n : Nat) : ∀ c ∈ natChars n, c.isDigit = true := by
  intro c hc
  by_cases h0 : n = 0
  · rw [natChars, if_pos h0] at hc
    have : c = '0' := by simpa using hc
    rw [this]
    decide
  · rw [natChars, if_neg h0] at hc
    exact natCharsF_isDigit (n + 1) n (by omega) c hc

theorem natChars_ne_nil (n : Nat) : natChars n ≠ [] := by
  by_cases h0 : n = 0
  · rw [natChars, if_pos h0]
    exact List.cons_ne_nil _ _
  · rw [natChars, if_neg h0, natCharsF, if_neg h0]
    simp

theorem digitsToNat_natChars (n : Nat) : digitsToNat (natChars n) = n := by
  by_cases h0 : n = 0
  · simp [natChars, if_pos h0, digitsToNat, h0]
  · rw [natChars, if_neg h0]
    exact natCharsF_val (n + 1) n (by omega)

theorem takeWhile_append_all {p : Char → Bool} {l₁ l₂ : List Char}
    (h : ∀ c ∈ l₁, p c = true) (h2 : ∀ c, l₂.head? = some c → p c = false) :
    (l₁ ++ l₂).takeWhile p = l₁ ∧ (l₁ ++ l₂).dropWhile p = l₂ := by
  induction l₁ with
  | nil =>
      simp only [List.nil_append]
      cases l₂ with
      | nil => simp
      | cons c t =>
          have := h2 c rfl
          simp [List.takeWhile, List.dropWhile, this]
  | cons c t ih =>
      have hc := h c (List.mem_cons_self c t)
      have ht := ih (fun x hx => h x (List.mem_cons_of_mem c hx))
      simp [List.takeWhile, List.dropWhile, hc, ht.1, ht.2]

theorem parseNum_natChars (neg : Bool) (n : Nat) (rest : List Char)
    (h : ∀ c, rest.head? = some c → c.isDigit = false) :
    parseNum neg (natChars n ++ rest) =
      some (.num (if neg then -(n : Int) else (n : Int)), rest) := by
  obtain ⟨ht, hd⟩ := takeWhile_append_all (natChars_isDigit n) h
  rw [parseNum, ht, hd, if_neg (natChars_ne_nil n), digitsToNat_natChars]

/- ### JSON round trip: string literals -/

theorem char_valid_ranges (c : Char) :
    c.toNat < 0xD800 ∨ (0xDFFF < c.toNat ∧ c.toNat < 0x110000) := by
  have h := c.valid
  unfold UInt32.isValidChar Nat.isValidChar at h
  exact h

theorem escapeChar_length_pos (c : Char) : 1 ≤ (escapeChar c).length := by
  rw [escapeChar]
  split
  · simp
  split
  · simp
  split
  · simp
  split
  · simp
  split
  · simp
  split
  · simp
  split
  · simp
  split
  · split <;> simp
  · simp

theorem escapeList_length (l : List Char) : l.length ≤ (escapeList l).length := by
  induction l with
  | nil => simp [escapeList]
  | cons c t ih =>
      have := escapeChar_length_pos c
      simp only [escapeList, List.flatMap_cons, List.length_append, List.length_cons]
      simp only [escapeList] at ih
      omega

theorem parseStrUnit_u (h1 h2 h3 h4 : Char) (rest3 : List Char) :
    parseStrUnit ('\\' :: 'u' :: h1 :: h2 :: h3 :: h4 :: rest3) =
      parseUEscape h1 h2 h3 h4 rest3 := rfl

theorem parseStrUnit_escapeChar (c : Char) (rest : List Char) :
    parseStrUnit (escapeChar c ++ rest) = some (some c, rest) := by
  by_cases h1 : c = '\\'
  · subst h1
    rfl
  by_cases h2 : c = '"'
  · subst h2
    rfl
  by_cases h3 : c = '\x08'
  · subst h3
    rfl
  by_cases h4 : c = '\x0c'
  · subst h4
    rfl
  by_cases h5 : c = '\n'
  · subst h5
    rfl
  by_cases h6 : c = '\r'
  · subst h6
    rfl
  by_cases h7 : c = '\t'
  · subst h7
    rfl
  by_cases h8 : c.toNat < 0x20 ∨ 0x7E < c.toNat
  · by_cases h9 : c.toNat < 0x10000
    · -- one `\uXXXX` escape; `c` is a scalar value, so not a surrogate
      have e1 : hexVal (hexDigitChar (c.toNat / 4096 % 16)) = some (c.toNat / 4096 % 16) :=
        hexVal_hexDigitChar _ (by omega)
      have e2 : hexVal (hexDigitChar (c.toNat / 256 % 16)) = some (c.toNat / 256 % 16) :=
        hexVal_hexDigitChar _ (by omega)
      have e3 : hexVal (hexDigitChar (c.toNat / 16 % 16)) = some (c.toNat / 16 % 16) :=
        hexVal_hexDigitChar _ (by omega)
      have e4 : hexVal (hexDigitChar (c.toNat % 16)) = some (c.toNat % 16) :=
        hexVal_hexDigitChar _ (by omega)
      have hcode : ((c.toNat / 4096 % 16 * 16 + c.toNat / 256 % 16) * 16 +
          c.toNat / 16 % 16) * 16 + c.toNat % 16 = c.toNat := by omega
      have hns1 : ¬(0xD800 ≤ c.toNat ∧ c.toNat ≤ 0xDBFF) := by
        rcases char_valid_ranges c with hv | hv <;> omega
      have hns2 : ¬(0xDC00 ≤ c.toNat ∧ c.toNat ≤ 0xDFFF) := by
        rcases char_valid_ranges c with hv | hv <;> omega
      rw [escapeChar, if_neg h1, if_neg h2, if_neg h3, if_neg h4, if_neg h5,
        if_neg h6, if_neg h7, if_pos h8, if_pos h9]
      simp only [toHex4, List.cons_append, List.nil_append]
      rw [parseStrUnit_u, parseUEscape, e1, e2, e3, e4]
      simp only [hcode]
      rw [if_neg hns1, if_neg hns2, Char.ofNat_toNat]
    · -- astral plane: a surrogate pair
      have hlt : c.toNat < 0x110000 := by
        rcases char_valid_ranges c with hv | hv <;> omega
      have e1 : hexVal (hexDigitChar ((0xD800 + (c.toNat - 0x10000) / 0x400) / 4096 % 16)) =
          some ((0xD800 + (c.toNat - 0x10000) / 0x400) / 4096 % 16) :=
        hexVal_hexDigitChar _ (by omega)
      have e2 : hexVal (hexDigitChar ((0xD800 + (c.toNat - 0x10000) / 0x400) / 256 % 16)) =
          some ((0xD800 + (c.toNat - 0x10000) / 0x400) / 256 % 16) :=
        hexVal_hexDigitChar _ (by omega)
      have e3 : hexVal (hexDigitChar ((0xD800 + (c.toNat - 0x10000) / 0x400) / 16 % 16)) =
          some ((0xD800 + (c.toNat - 0x10000) / 0x400) / 16 % 16) :=
        hexVal_hexDigitChar _ (by omega)
      have e4 : hexVal (hexDigitChar ((0xD800 + (c.toNat - 0x10000) / 0x400) % 16)) =
          some ((0xD800 + (c.toNat - 0x10000) / 0x400) % 16) :=
        hexVal_hexDigitChar _ (by omega)
      have f1 : hexVal (hexDigitChar ((0xDC00 + (c.toNat - 0x10000) % 0x400) / 4096 % 16)) =
          some ((0xDC00 + (c.toNat - 0x10000) % 0x400) / 4096 % 16) :=
        hexVal_hexDigitChar _ (by omega)
      have f2 : hexVal (hexDigitChar ((0xDC00 + (c.toNat - 0x10000) % 0x400) / 256 % 16)) =
          some ((0xDC00 + (c.toNat - 0x10000) % 0x400) / 256 % 16) :=
        hexVal_hexDigitChar _ (by omega)
      have f3 : hexVal (hexDigitChar ((0xDC00 + (c.toNat - 0x10000) % 0x400) / 16 % 16)) =
          some ((0xDC00 + (c.toNat - 0x10000) % 0x400) / 16 % 16) :=
        hexVal_hexDigitChar _ (by omega)
      have f4 : hexVal (hexDigitChar ((0xDC00 + (c.toNat - 0x10000) % 0x400) % 16)) =
          some ((0xDC00 + (c.toNat - 0x10000) % 0x400) % 16) :=
        hexVal_hexDigitChar _ (by omega)
      have hcodeHi : (((0xD800 + (c.toNat - 0x10000) / 0x400) / 4096 % 16 * 16 +
          (0xD800 + (c.toNat - 0x10000) / 0x400) / 256 % 16) * 16 +
          (0xD800 + (c.toNat - 0x10000) / 0x400) / 16 % 16) * 16 +
          (0xD800 + (c.toNat - 0x10000) / 0x400) % 16 =
          0xD800 + (c.toNat - 0x10000) / 0x400 := by omega
      have hcodeLo : (((0xDC00 + (c.toNat - 0x10000) % 0x400) / 4096 % 16 * 16 +
          (0xDC00 + (c.toNat - 0x10000) % 0x400) / 256 % 16) * 16 +
          (0xDC00 + (c.toNat - 0x10000) % 0x400) / 16 % 16) * 16 +
          (0xDC00 + (c.toNat - 0x10000) % 0x400) % 16 =
          0xDC00 + (c.toNat - 0x10000) % 0x400 := by omega
      have hhiRange : 0xD800 ≤ 0xD800 + (c.toNat - 0x10000) / 0x400 ∧
          0xD800 + (c.toNat - 0x10000) / 0x400 ≤ 0xDBFF := by omega
      have hloRange : 0xDC00 ≤ 0xDC00 + (c.toNat - 0x10000) % 0x400 ∧
          0xDC00 + (c.toNat - 0x10000) % 0x400 ≤ 0xDFFF := by omega
      have hcomb : 0x10000 +
          (0xD800 + (c.toNat - 0x10000) / 0x400 - 0xD800) * 0x400 +
          (0xDC00 + (c.toNat - 0x10000) % 0x400 - 0xDC00) = c.toNat := by omega
      rw [escapeChar, if_neg h1, if_neg h2, if_neg h3, if_neg h4, if_neg h5,
        if_neg h6, if_neg h7, if_pos h8, if_neg h9]
      simp only [toHex4, List.cons_append, List.nil_append, List.append_assoc]
      rw [parseStrUnit_u, parseUEscape, e1, e2, e3, e4]
      simp only [hcodeHi]
      rw [if_pos hhiRange]
      rw [if_pos (show True ∧ True from ⟨trivial, trivial⟩)]
      rw [parseULow, f1, f2, f3, f4]
      simp only [hcodeLo]
      rw [if_pos hloRange, hcomb, Char.ofNat_toNat]
  · -- printable ASCII other than quote and backslash: kept verbatim
    rw [escapeChar, if_neg h1, if_neg h2, if_neg h3, if_neg h4, if_neg h5,
      if_neg h6, if_neg h7, if_neg h8]
    simp only [List.singleton_append]
    simp only [parseStrUnit]
    rw [if_neg h2, if_neg h1]

theorem parseStrF_escape (l : List Char) :
    ∀ fuel rest, l.length + 1 ≤ fuel →
      parseStrF fuel (escapeList l ++ '"' :: rest) = some (l, rest) := by
  induction l with
  | nil =>
      intro fuel rest h
      cases fuel with
      | zero => omega
      | succ f =>
          rw [show escapeList [] ++ '"' :: rest = '"' :: rest by simp [escapeList]]
          rfl
  | cons c t ih =>
      intro fuel rest h
      cases fuel with
      | zero => omega
      | succ f =>
          have : escapeList (c :: t) = escapeChar c ++ escapeList t := by
            simp [escapeList]
          rw [this, List.append_assoc, parseStrF, parseStrUnit_escapeChar]
          show (match parseStrF f (escapeList t ++ '"' :: rest) with
            | some (l, r) => some (c :: l, r)
            | none => none) = some (c :: t, rest)
          rw [ih f rest (by simp at h; omega)]

/- ### JSON round trip: values -/

theorem sizeJ_pos (v : JVal) : 1 ≤ sizeJ v := by
  cases v <;> simp [sizeJ]

theorem digit_not_special {c : Char} (h : c.isDigit = true) :
    ¬c = 'n' ∧ ¬c = 't' ∧ ¬c = 'f' ∧ ¬c = '"' ∧ ¬c = '[' ∧ ¬c = '{' ∧ ¬c = '-' := by
  refine ⟨?_, ?_, ?_, ?_, ?_, ?_, ?_⟩ <;> rintro rfl <;> exact absurd h (by decide)

theorem pyWs_of_isDigit {c : Char} (h : c.isDigit = true) : pyWs c = false := by
  cases hw : pyWs c
  · rfl
  · exfalso
    unfold pyWs at hw
    simp only [Bool.or_eq_true, decide_eq_true_eq] at hw
    rcases hw with ((((rfl | rfl) | rfl) | rfl) | rfl) | rfl <;> exact absurd h (by decide)

theorem digit_not_bracket {c : Char} (h : c.isDigit = true) :
    c ≠ ']' ∧ c ≠ '}' := by
  constructor <;> rintro rfl <;> exact absurd h (by decide)

/-- Every encoding starts with a character that is not a closing bracket
and not whitespace. -/
theorem encodeVal_head_ex (v : JVal) :
    ∃ c t, encodeVal v = c :: t ∧ c ≠ ']' ∧ c ≠ '}' ∧ pyWs c = false := by
  cases v with
  | null => exact ⟨'n', _, rfl, by decide, by decide, by decide⟩
  | bool b => cases b
              · exact ⟨'f', _, rfl, by decide, by decide, by decide⟩
              · exact ⟨'t', _, rfl, by decide, by decide, by decide⟩
  | num n =>
      cases n with
      | ofNat m =>
          obtain ⟨d, ds, hds⟩ := List.exists_cons_of_ne_nil (natChars_ne_nil m)
          have hd : d.isDigit = true := by
            apply natChars_isDigit m d
            rw [hds]
            exact List.mem_cons_self _ _
          refine ⟨d, ds, ?_, (digit_not_bracket hd).1, (digit_not_bracket hd).2,
            pyWs_of_isDigit hd⟩
          show encodeInt (Int.ofNat m) = d :: ds
          rw [encodeInt, hds]
      | negSucc m => exact ⟨'-', _, rfl, by decide, by decide, by decide⟩
  | str s => exact ⟨'"', _, rfl, by decide, by decide, by decide⟩
  | arr xs => exact ⟨'[', _, rfl, by decide, by decide, by decide⟩
  | obj fs => exact ⟨'{', _, rfl, by decide, by decide, by decide⟩

theorem parseVal_str_eq (fuel : Nat) (rest : List Char) :
    parseVal (fuel + 1) ('"' :: rest) =
      match parseStrF (rest.length + 1) rest with
      | some (l, r) => some (.str (String.mk l), r)
      | none => none := rfl

theorem parseVal_neg_eq (fuel : Nat) (rest : List Char) :
    parseVal (fuel + 1) ('-' :: rest) = parseNum true rest := rfl

theorem parseVal_digit_eq (fuel : Nat) (c : Char) (rest : List Char)
    (h : c.isDigit = true) :
    parseVal (fuel + 1) (c :: rest) = parseNum false (c :: rest) := by
  obtain ⟨h1, h2, h3, h4, h5, h6, h7⟩ := digit_not_special h
  simp only [parseVal]
  rw [if_neg h1, if_neg h2, if_neg h3, if_neg h4, if_neg h5, if_neg h6, if_neg h7,
    if_pos h]

theorem parseVal_arr_cons_eq (fuel : Nat) (c2 : Char) (r2 : List Char)
    (h : ¬c2 = ']') :
    parseVal (fuel + 1) ('[' :: c2 :: r2) =
      match parseItems fuel (c2 :: r2) with
      | some (vs, r) => some (.arr vs, r)
      | none => none := by
  simp [parseVal, h]

theorem parseVal_obj_cons_eq (fuel : Nat) (c2 : Char) (r2 : List Char)
    (h : ¬c2 = '}') :
    parseVal (fuel + 1) ('{' :: c2 :: r2) =
      match parseFields fuel (c2 :: r2) with
      | some (fs, r) => some (.obj fs, r)
      | none => none := by
  simp [parseVal, h]

theorem parseItems_succ_eq (fuel : Nat) (input : List Char) :
    parseItems (fuel + 1) input =
      match parseVal fuel input with
      | some (v, rest) =>
          match rest with
          | ']' :: r => some ([v], r)
          | ',' :: ' ' :: r =>
              match parseItems fuel r with
              | some (vs, r2) => some (v :: vs, r2)
              | none => none
          | _ => none
      | none => none := rfl

theorem parseFields_quote_eq (fuel : Nat) (rest : List Char) :
    parseFields (fuel + 1) ('"' :: rest) =
      match parseStrF (rest.length + 1) rest with
      | some (k, r) =>
          match r with
          | ':' :: ' ' :: r2 =>
              match parseVal fuel r2 with
              | some (v, r3) =>
                  match r3 with
                  | '}' :: r4 => some ([(String.mk k, v)], r4)
                  | ',' :: ' ' :: r4 =>
                      match parseFields fuel r4 with
                      | some (fs, r5) => some ((String.mk k, v) :: fs, r5)
                      | none => none
                  | _ => none
              | none => none
          | _ => none
      | none => none := rfl

theorem encodeItems_cons (x : JVal) (xs : List JVal) :
    encodeItems (x :: xs) = encodeVal x ++ itemsTail xs := by
  cases xs <;> simp [encodeItems, itemsTail]

theorem encodeFields_cons (k : String) (v : JVal) (fs : List (String × JVal)) :
    encodeFields ((k, v) :: fs) =
      encodeStr k ++ ':' :: ' ' :: encodeVal v ++ fieldsTail fs := by
  cases fs <;> simp [encodeFields, fieldsTail]

theorem parse_enc (fuel : Nat) :
    (∀ v rest, sizeJ v ≤ fuel → (∀ c, rest.head? = some c → c.isDigit = false) →
      parseVal fuel (encodeVal v ++ rest) = some (v, rest)) ∧
    (∀ x xs rest, sizeJL (x :: xs) ≤ fuel →
      parseItems fuel (encodeItems (x :: xs) ++ ']' :: rest) = some (x :: xs, rest)) ∧
    (∀ f fs rest, sizeJF (f :: fs) ≤ fuel →
      parseFields fuel (encodeFields (f :: fs) ++ '}' :: rest) = some (f :: fs, rest)) := by
  induction fuel with
  | zero =>
      refine ⟨?_, ?_, ?_⟩
      · intro v rest hs hr
        exact absurd hs (by have := sizeJ_pos v; omega)
      · intro x xs rest hs
        simp only [sizeJL] at hs
        omega
      · intro f fs rest hs
        simp only [sizeJF] at hs
        omega
  | succ fuel ih =>
      obtain ⟨ihP, ihQ, ihR⟩ := ih
      refine ⟨?_, ?_, ?_⟩
      · intro v rest hs hr
        cases v with
        | null => rfl
        | bool b => cases b <;> rfl
        | num n =>
            cases n with
            | ofNat m =>
                obtain ⟨d, ds, hds⟩ := List.exists_cons_of_ne_nil (natChars_ne_nil m)
                have hd : d.isDigit = true := by
                  apply natChars_isDigit m d
                  rw [hds]
                  exact List.mem_cons_self _ _
                show parseVal (fuel + 1) (natChars m ++ rest) = _
                rw [hds, List.cons_append, parseVal_digit_eq fuel d (ds ++ rest) hd,
                  ← List.cons_append, ← hds, parseNum_natChars false m rest hr]
                rfl
            | negSucc m =>
                show parseVal (fuel + 1) (('-' :: natChars (m + 1)) ++ rest) = _
                rw [List.cons_append, parseVal_neg_eq,
                  parseNum_natChars true (m + 1) rest hr]
                simp [Int.negSucc_eq]
        | str s =>
            show parseVal (fuel + 1) (('"' :: (escapeList s.toList ++ ['"'])) ++ rest) = _
            rw [List.cons_append, List.append_assoc, List.singleton_append,
              parseVal_str_eq fuel, parseStrF_escape s.toList _ rest
                (by
                  have := escapeList_length s.toList
                  simp only [List.length_append, List.length_cons]
                  omega)]
            rfl
        | arr xs =>
            cases xs with
            | nil => rfl
            | cons x xs =>
                obtain ⟨c0, t0, hct, hc1, hc2, hc3⟩ := encodeVal_head_ex x
                have hitems : encodeItems (x :: xs) ++ ']' :: rest =
                    c0 :: (t0 ++ itemsTail xs ++ ']' :: rest) := by
                  rw [encodeItems_cons, hct]
                  simp [List.append_assoc]
                show parseVal (fuel + 1)
                  (('[' :: (encodeItems (x :: xs) ++ [']'])) ++ rest) = _
                rw [List.cons_append, List.append_assoc, List.singleton_append, hitems,
                  parseVal_arr_cons_eq fuel c0 _ hc1, ← hitems,
                  ihQ x xs rest (by simp only [sizeJ] at hs; omega)]
        | obj fs =>
            cases fs with
            | nil => rfl
            | cons f fs =>
                obtain ⟨k, v⟩ := f
                have hfields : encodeFields ((k, v) :: fs) ++ '}' :: rest =
                    '"' :: ((escapeList k.toList ++ ['"']) ++ ':' :: ' ' :: encodeVal v ++
                      fieldsTail fs ++ '}' :: rest) := by
                  rw [encodeFields_cons]
                  show (('"' :: (escapeList k.toList ++ ['"'])) ++ _ ++ _) ++ _ = _
                  simp [List.append_assoc]
                show parseVal (fuel + 1)
                  (('{' :: (encodeFields ((k, v) :: fs) ++ ['}'])) ++ rest) = _
                rw [List.cons_append, List.append_assoc, List.singleton_append, hfields,
                  parseVal_obj_cons_eq fuel '"' _ (by decide), ← hfields,
                  ihR (k, v) fs rest (by simp only [sizeJ] at hs; omega)]
      · intro x xs rest hs
        simp only [sizeJL] at hs
        cases xs with
        | nil =>
            rw [show encodeItems [x] ++ ']' :: rest = encodeVal x ++ ']' :: rest by
                rw [encodeItems_cons]
                simp [itemsTail],
              parseItems_succ_eq,
              ihP x (']' :: rest) (by omega) (by rintro c ⟨rfl⟩; decide)]
            rfl
        | cons y ys =>
            rw [show encodeItems (x :: y :: ys) ++ ']' :: rest =
                encodeVal x ++ (',' :: ' ' :: (encodeItems (y :: ys) ++ ']' :: rest)) by
                rw [encodeItems_cons]
                simp [itemsTail, List.append_assoc],
              parseItems_succ_eq,
              ihP x (',' :: ' ' :: (encodeItems (y :: ys) ++ ']' :: rest))
                (by omega)
                (by rintro c ⟨rfl⟩; decide)]
            show (match parseItems fuel (encodeItems (y :: ys) ++ ']' :: rest) with
              | some (vs, r2) => some (x :: vs, r2)
              | none => none) = some (x :: y :: ys, rest)
            rw [ihQ y ys rest (by simp only [sizeJL] at hs ⊢; omega)]
      · intro f fs rest hs
        obtain ⟨k, v⟩ := f
        simp only [sizeJF] at hs
        have hkey : encodeFields ((k, v) :: fs) ++ '}' :: rest =
            '"' :: (escapeList k.toList ++ '"' ::
              (':' :: ' ' :: (encodeVal v ++ (fieldsTail fs ++ '}' :: rest)))) := by
          rw [encodeFields_cons]
          show (('"' :: (escapeList k.toList ++ ['"'])) ++ _ ++ _) ++ _ = _
          simp [List.append_assoc]
        rw [hkey, parseFields_quote_eq,
          parseStrF_escape k.toList _ _
            (by
              have := escapeList_length k.toList
              simp only [List.length_append, List.length_cons]
              omega)]
        cases fs with
        | nil =>
            show (match parseVal fuel (encodeVal v ++ (fieldsTail [] ++ '}' :: rest)) with
              | some (v2, r3) =>
                  match r3 with
                  | '}' :: r4 => some ([(String.mk k.toList, v2)], r4)
                  | ',' :: ' ' :: r4 =>
                      match parseFields fuel r4 with
                      | some (fs2, r5) => some ((String.mk k.toList, v2) :: fs2, r5)
                      | none => none
                  | _ => none
              | none => none) = some ([(k, v)], rest)
            rw [show fieldsTail [] ++ '}' :: rest = '}' :: rest by simp [fieldsTail],
              ihP v ('}' :: rest) (by omega) (by rintro c ⟨rfl⟩; decide)]
            rfl
        | cons f2 fs2 =>
            show (match parseVal fuel (encodeVal v ++ (fieldsTail (f2 :: fs2) ++ '}' :: rest)) with
              | some (v2, r3) =>
                  match r3 with
                  | '}' :: r4 => some ([(String.mk k.toList, v2)], r4)
                  | ',' :: ' ' :: r4 =>
                      match parseFields fuel r4 with
                      | some (fs3, r5) => some ((String.mk k.toList, v2) :: fs3, r5)
                      | none => none
                  | _ => none
              | none => none) = some ((k, v) :: f2 :: fs2, rest)
            rw [show fieldsTail (f2 :: fs2) ++ '}' :: rest =
                ',' :: ' ' :: (encodeFields (f2 :: fs2) ++ '}' :: rest) by simp [fieldsTail],
              ihP v (',' :: ' ' :: (encodeFields (f2 :: fs2) ++ '}' :: rest))
                (by omega) (by rintro c ⟨rfl⟩; decide)]
            show (match parseFields fuel (encodeFields (f2 :: fs2) ++ '}' :: rest) with
              | some (fs3, r5) => some ((String.mk k.toList, v) :: fs3, r5)
              | none => none) = some ((k, v) :: f2 :: fs2, rest)
            rw [ihR f2 fs2 rest (by omega)]
            rfl

/- ### JSON round trip: assembly -/

mutual
theorem sizeJ_le_len : (v : JVal) → sizeJ v ≤ (encodeVal v).length
  | .null => by simp [sizeJ, encodeVal]
  | .bool b => by cases b <;> simp [sizeJ, encodeVal]
  | .num n => by
      cases n with
      | ofNat m =>
          have := List.length_pos.mpr (natChars_ne_nil m)
          simp only [sizeJ, encodeVal, encodeInt]
          omega
      | negSucc m => simp [sizeJ, encodeVal, encodeInt]
  | .str s => by simp [sizeJ, encodeVal, encodeStr]
  | .arr xs => by
      have := sizeJL_le_len xs
      simp only [sizeJ, encodeVal, List.length_cons, List.length_append,
        List.length_singleton]
      omega
  | .obj fs => by
      have := sizeJF_le_len fs
      simp only [sizeJ, encodeVal, List.length_cons, List.length_append,
        List.length_singleton]
      omega
theorem sizeJL_le_len : (xs : List JVal) → sizeJL xs ≤ (encodeItems xs).length + 1
  | [] => by simp [sizeJL]
  | [x] => by
      have := sizeJ_le_len x
      simp only [sizeJL, encodeItems]
      omega
  | x :: y :: ys => by
      have h1 := sizeJ_le_len x
      have h2 := sizeJL_le_len (y :: ys)
      simp only [sizeJL, encodeItems, List.length_append, List.length_cons] at *
      omega
theorem sizeJF_le_len : (fs : List (String × JVal)) →
    sizeJF fs ≤ (encodeFields fs).length + 1
  | [] => by simp [sizeJF]
  | [(k, v)] => by
      have := sizeJ_le_len v
      simp only [sizeJF, encodeFields, List.length_append, List.length_cons]
      omega
  | (k, v) :: f :: fs => by
      have h1 := sizeJ_le_len v
      have h2 := sizeJF_le_len (f :: fs)
      simp only [sizeJF, encodeFields, List.length_append, List.length_cons] at *
      omega
end

theorem jLoads_jDumps (v : JVal) : jLoads (jDumps v) = some v := by
  have h := (parse_enc ((encodeVal v).length + 1)).1 v []
    (le_trans (sizeJ_le_len v) (by omega)) (by intro c hc; cases hc)
  rw [List.append_nil] at h
  show (match parseVal ((encodeVal v).length + 1) (encodeVal v) with
    | some (v, []) => some v
    | _ => none) = some v
  rw [h]

/-- Every encoding ends with a character that is not whitespace. -/
theorem encodeVal_last_ex (v : JVal) :
    ∃ c, (encodeVal v).getLast? = some c ∧ pyWs c = false := by
  cases v with
  | null => exact ⟨'l', rfl, by decide⟩
  | bool b => cases b
              · exact ⟨'e', rfl, by decide⟩
              · exact ⟨'e', rfl, by decide⟩
  | num n =>
      have digitLast : ∀ m : Nat, ∃ c, (natChars m).getLast? = some c ∧ pyWs c = false := by
        intro m
        obtain ⟨d, ds, hds⟩ := List.exists_cons_of_ne_nil (natChars_ne_nil m)
        have hne : natChars m ≠ [] := natChars_ne_nil m
        obtain ⟨c, hc⟩ : ∃ c, (natChars m).getLast? = some c := by
          rw [hds]
          exact ⟨(d :: ds).getLast (List.cons_ne_nil d ds), List.getLast?_eq_getLast _ _⟩
        have hcd : c.isDigit = true :=
          natChars_isDigit m c (List.mem_of_mem_getLast? hc)
        exact ⟨c, hc, pyWs_of_isDigit hcd⟩
      cases n with
      | ofNat m => exact digitLast m
      | negSucc m =>
          obtain ⟨c, hc, hw⟩ := digitLast (m + 1)
          refine ⟨c, ?_, hw⟩
          show (['-'] ++ natChars (m + 1)).getLast? = some c
          rw [List.getLast?_append_of_ne_nil _ (natChars_ne_nil (m + 1))]
          exact hc
  | str s =>
      refine ⟨'"', ?_, by decide⟩
      show (('"' :: escapeList s.toList) ++ ['"']).getLast? = some '"'
      exact List.getLast?_concat _
  | arr xs =>
      refine ⟨']', ?_, by decide⟩
      show (('[' :: encodeItems xs) ++ [']']).getLast? = some ']'
      exact List.getLast?_concat _
  | obj fs =>
      refine ⟨'}', ?_, by decide⟩
      show (('{' :: encodeFields fs) ++ ['}']).getLast? = some '}'
      exact List.getLast?_concat _

theorem pyStripList_eq_self {l : List Char}
    (h1 : ∀ c, l.head? = some c → pyWs c = false)
    (h2 : ∀ c, l.getLast? = some c → pyWs c = false) :
    pyStripList l = l := by
  unfold pyStripList
  have hd1 : l.dropWhile pyWs = l := by
    cases l with
    | nil => rfl
    | cons c t => simp [List.dropWhile_cons, h1 c rfl]
  rw [hd1]
  have hd2 : l.reverse.dropWhile pyWs = l.reverse := by
    cases hr : l.reverse with
    | nil => rfl
    | cons c t =>
        have hc : l.getLast? = some c := by
          rw [← List.head?_reverse, hr]
          rfl
        simp [List.dropWhile_cons, h2 c hc]
  rw [hd2, List.reverse_reverse]

theorem pyStripList_encodeVal (v : JVal) :
    pyStripList (encodeVal v) = encodeVal v := by
  obtain ⟨c0, t0, hct, _, _, hw0⟩ := encodeVal_head_ex v
  obtain ⟨c1, hc1, hw1⟩ := encodeVal_last_ex v
  apply pyStripList_eq_self
  · intro c hc
    rw [hct] at hc
    cases hc
    exact hw0
  · intro c hc
    rw [hc1] at hc
    cases hc
    exact hw1

theorem isPrefixOf_append_self (l t : List Char) : l.isPrefixOf (l ++ t) = true := by
  induction l with
  | nil => simp [List.isPrefixOf]
  | cons c cs ih => simp [List.isPrefixOf, ih]

theorem lastMatching_append (p : Msg → Bool) (log : List Msg) (m : Msg)
    (h : p m = true) : lastMatching p (log ++ [m]) = some m := by
  unfold lastMatching
  rw [List.filter_append]
  have hm : List.filter p [m] = [m] := by simp [h]
  rw [hm, List.getLast?_concat]

theorem afterColon_dataPre (l : List Char) :
    afterColon ("__DATA__:".toList ++ l) = some l := rfl

/- ### Theorems: C9 and C10 -/

/-- C9: decoding the `__DATA__` message written by `_save_session_data`
recovers the session data exactly: `decode(encode(data)) == data` for
every JSON session value, over any prior message log. -/
theorem c9_session_data_roundtrip (data : JVal) (log : List Msg) :
    getSessionData (saveSessionData log data) = data := by
  have hp : isDataMsg ⟨"__DATA__:" ++ jDumps data, "OUT", true⟩ = true := by
    show ("__DATA__:".toList.isPrefixOf ("__DATA__:".toList ++ encodeVal data)) = true
    exact isPrefixOf_append_self _ _
  unfold saveSessionData getSessionData
  rw [lastMatching_append isDataMsg log _ hp]
  show (match afterColon ("__DATA__:".toList ++ encodeVal data) with
    | some t =>
        match jLoads (String.mk (pyStripList t)) with
        | some v => v
        | none => JVal.obj []
    | none => JVal.obj []) = data
  rw [afterColon_dataPre]
  show (match jLoads (String.mk (pyStripList (encodeVal data))) with
    | some v => v
    | none => JVal.obj []) = data
  have hl := jLoads_jDumps data
  rw [jDumps] at hl
  rw [pyStripList_encodeVal, hl]

/-- C10: session recovery is total: with no `__STATE__` message the state
is `'initial'`; with no `__DATA__` message, or an undecodable payload in
the most recent one, the data is the empty dict; no case raises. -/
theorem c10_session_recovery_total (log : List Msg) :
    (lastMatching isStateMsg log = none → getSessionState log = SESSION_INITIAL) ∧
    (lastMatching isDataMsg log = none → getSessionData log = JVal.obj []) ∧
    (∀ m t, lastMatching isDataMsg log = some m →
      afterColon m.content.toList = some t →
      jLoads (String.mk (pyStripList t)) = none →
      getSessionData log = JVal.obj []) := by
  refine ⟨?_, ?_, ?_⟩
  · intro h
    unfold getSessionState
    rw [h]
  · intro h
    unfold getSessionData
    rw [h]
  · intro m t hm ht hj
    unfold getSessionData
    rw [hm]
    show (match afterColon m.content.toList with
      | some t2 =>
          match jLoads (String.mk (pyStripList t2)) with
          | some v => v
          | none => JVal.obj []
      | none => JVal.obj []) = JVal.obj []
    rw [ht]
    show (match jLoads (String.mk (pyStripList t)) with
      | some v => v
      | none => JVal.obj []) = JVal.obj []
    rw [hj]

/-- Witness for C10: a log whose only data message carries invalid JSON,
and the empty log. -/
theorem c10_session_recovery_total_witness :
    (lastMatching isStateMsg [⟨"__DATA__:oops", "OUT", true⟩] = none ∧
      getSessionState [⟨"__DATA__:oops", "OUT", true⟩] = SESSION_INITIAL) ∧
    (lastMatching isDataMsg [] = none ∧ getSessionData [] = JVal.obj []) ∧
    (lastMatching isDataMsg [⟨"__DATA__:oops", "OUT", true⟩] =
        some ⟨"__DATA__:oops", "OUT", true⟩ ∧
      afterColon ("__DATA__:oops".toList) = some "oops".toList ∧
      jLoads (String.mk (pyStripList "oops".toList)) = none ∧
      getSessionData [⟨"__DATA__:oops", "OUT", true⟩] = JVal.obj []) :=
  ⟨⟨rfl, (c10_session_recovery_total [⟨"__DATA__:oops", "OUT", true⟩]).1 rfl⟩,
    ⟨rfl, (c10_session_recovery_total []).2.1 rfl⟩,
    ⟨rfl, rfl, rfl,
      (c10_session_recovery_total [⟨"__DATA__:oops", "OUT", true⟩]).2.2
        ⟨"__DATA__:oops", "OUT", true⟩ "oops".toList rfl rfl rfl⟩⟩

/- ### Theorems: C1, C2, C8 -/

/-- C1: the claim says `get_answer` returns the default Answer's text.
In the code as written it instead raises: `models.Answer` has no field
`text` (the field is `content`), so `default_answer.text` is an
`AttributeError` on any question that has an answer. -/
theorem c1_get_answer_attribute_error :
    getAnswer dbC1 ⟨0, "abc", "", true⟩ = .error .attributeError ∧
      dbC1.answersOf ⟨0, "abc", "", true⟩ ≠ [] := by
  exact ⟨rfl, by decide⟩

/-- C2: on a matched query with an existing answer, `process_query` raises
(`AttributeError` from `get_answer`) before reaching
`QAInteraction.objects.create`, and appends no interaction row — the
claim expected exactly one appended row. -/
theorem c2_process_query_raises_appends_nothing :
    processQuery dbC2 "abc" 7 [] = (.error .attributeError, []) ∧
      findMatchingQuestion dbC2 "abc" = (some ⟨0, "abc", "", true⟩, 1) := by
  exact ⟨rfl, by decide⟩

/-- C8: a query whose trimmed length is under 3 characters yields no match,
confidence 0, and leaves the interaction log untouched. -/
theorem c8_short_query_rejected (db : QADb) (uq : String) (cv : Nat)
    (log : List QAInteractionRow) (h : (pyStrip uq).length < 3) :
    findMatchingQuestion db uq = (none, 0) ∧
      processQuery db uq cv log = (.ok ⟨false, none, 0, none, none⟩, log) := by
  have hf : findMatchingQuestion db uq = (none, 0) := by
    unfold findMatchingQuestion
    rw [if_pos (Or.inr h)]
  refine ⟨hf, ?_⟩
  simp only [processQuery, hf]

/-- Witness for C8 at the concrete query "hi". -/
theorem c8_short_query_rejected_witness :
    (pyStrip "hi").length < 3 ∧
      (findMatchingQuestion ⟨[], []⟩ "hi" = (none, 0) ∧
        processQuery ⟨[], []⟩ "hi" 0 [] = (.ok ⟨false, none, 0, none, none⟩, [])) :=
  ⟨by decide, c8_short_query_rejected ⟨[], []⟩ "hi" 0 [] (by decide)⟩

/- ### Theorems: C6 -/

/-- C6 counterexample: the query "abcdef" is (after normalization) exactly
the active question's text, yet `find_matching_question` returns it with
confidence 2/3, not 1.0 — the keyword pass qualifies first with score
`len("abcd")/len("abcdef")`. -/
theorem c6_counterexample :
    3 ≤ (pyStrip "abcdef").length ∧
      normalizeText qC6.text = normalizeText "abcdef" ∧
      qC6.is_active = true ∧
      findMatchingQuestion ⟨[qC6], []⟩ "abcdef" = (some qC6, mkRat 2 3) ∧
      (mkRat 2 3 : ℚ) ≠ 1 := by
  refine ⟨by decide, rfl, rfl, by decide, by decide⟩

/-- C6 as amended: if additionally no question qualifies in the keyword
pass and the matching question is the only active one whose normalized
text equals the normalized query, then `find_matching_question` returns
that question with confidence 1.0. -/
theorem c6_exact_match_confidence_one (db : QADb) (uq : String) (q : QuestionRow)
    (h3 : 3 ≤ (pyStrip uq).length)
    (hq : q ∈ activeQuestions db)
    (heq : normalizeText q.text = normalizeText uq)
    (huniq : ∀ q₂ ∈ activeQuestions db,
      normalizeText q₂.text = normalizeText uq → q₂ = q)
    (hkw : ∀ p ∈ matchByKeywords db (normalizeText uq), p.2 < MATCH_THRESHOLD) :
    findMatchingQuestion db uq = (some q, 1) := by
  have hsim : similarity (normalizeText uq) (normalizeText q.text) = 1 := by
    rw [heq]
    exact smRatio_self _
  have helem : (q, (1 : ℚ)) ∈ matchBySimilarity db (normalizeText uq) := by
    rw [matchBySimilarity, List.mem_filterMap]
    refine ⟨q, hq, ?_⟩
    rw [hsim]
    norm_num
  have hbound : ∀ p ∈ matchBySimilarity db (normalizeText uq), p.2 ≤ 1 := by
    intro p hp
    rw [matchBySimilarity, List.mem_filterMap] at hp
    obtain ⟨q₂, _, hf⟩ := hp
    by_cases hpos : (0 : ℚ) < similarity (normalizeText uq) (normalizeText q₂.text)
    · rw [if_pos hpos, Option.some_inj] at hf
      rw [← hf]
      exact smRatio_le_one _ _
    · rw [if_neg hpos] at hf
      cases hf
  have hmax : ∀ p ∈ matchBySimilarity db (normalizeText uq), p.2 = 1 → p = (q, 1) := by
    intro p hp h1
    rw [matchBySimilarity, List.mem_filterMap] at hp
    obtain ⟨q₂, hq₂, hf⟩ := hp
    by_cases hpos : (0 : ℚ) < similarity (normalizeText uq) (normalizeText q₂.text)
    · rw [if_pos hpos, Option.some_inj] at hf
      have hs : similarity (normalizeText uq) (normalizeText q₂.text) = 1 := by
        rw [← hf] at h1
        exact h1
      have htl : (normalizeText uq).toList = (normalizeText q₂.text).toList :=
        smRatio_eq_one hs
      have hstr : normalizeText q₂.text = normalizeText uq :=
        (String.toList_inj.mp htl).symm
      have : q₂ = q := huniq q₂ hq₂ hstr
      rw [← hf, this, hsim]
    · rw [if_neg hpos] at hf
      cases hf
  have hstep : simStep db (normalizeText uq) = (some q, 1) := by
    have hne : matchBySimilarity db (normalizeText uq) ≠ [] := by
      intro h0
      rw [h0] at helem
      cases helem
    obtain ⟨p, hp, hpm, hple⟩ := topByScore_spec hne
    have h1le : (1 : ℚ) ≤ p.2 := hple (q, 1) helem
    have hpe : p = (q, 1) := hmax p hpm (le_antisymm (hbound p hpm) h1le)
    rw [simStep, hp, hpe]
    show (if MATCH_THRESHOLD ≤ (1 : ℚ) then ((some q : Option QuestionRow), (1 : ℚ))
      else (none, 0)) = (some q, 1)
    rw [if_pos (by decide : MATCH_THRESHOLD ≤ (1 : ℚ))]
  have hcond : ¬(uq = "" ∨ (pyStrip uq).length < 3) := by
    rintro (rfl | hlt)
    · exact absurd h3 (by decide)
    · omega
  rw [findMatchingQuestion, if_neg hcond]
  cases hkt : topByScore (matchByKeywords db (normalizeText uq)) with
  | none => exact hstep
  | some p =>
      obtain ⟨qq, s⟩ := p
      have hlt : s < MATCH_THRESHOLD := hkw _ (topByScore_mem hkt)
      show (if MATCH_THRESHOLD ≤ s then ((some qq : Option QuestionRow), s)
        else simStep db (normalizeText uq)) = (some q, 1)
      rw [if_neg (not_le.mpr hlt)]
      exact hstep

/-- Witness for the amended C6 at a concrete database and query. -/
theorem c6_exact_match_confidence_one_witness :
    (3 ≤ (pyStrip "Que  Hago").length ∧
        qC6w ∈ activeQuestions ⟨[qC6w], []⟩ ∧
        normalizeText qC6w.text = normalizeText "Que  Hago" ∧
        (∀ q₂ ∈ activeQuestions ⟨[qC6w], []⟩,
          normalizeText q₂.text = normalizeText "Que  Hago" → q₂ = qC6w) ∧
        (∀ p ∈ matchByKeywords ⟨[qC6w], []⟩ (normalizeText "Que  Hago"),
          p.2 < MATCH_THRESHOLD)) ∧
      findMatchingQuestion ⟨[qC6w], []⟩ "Que  Hago" = (some qC6w, 1) :=
  ⟨⟨by decide, by decide, by decide, by decide, by decide⟩,
    c6_exact_match_confidence_one ⟨[qC6w], []⟩ "Que  Hago" qC6w
      (by decide) (by decide) (by decide) (by decide) (by decide)⟩


/- ### Write balance of the SmartResponseEngine -/

theorem stateMsg_is_state (s : String) :
    isStateMsg ⟨"__STATE__:" ++ s, "OUT", true⟩ = true := by
  cases s with
  | mk ls =>
    show List.isPrefixOf "__STATE__:".toList ("__STATE__:".toList ++ ls) = true
    simp [List.isPrefixOf]

theorem dataMsg_not_state (t : String) :
    isStateMsg ⟨"__DATA__:" ++ t, "OUT", true⟩ = false := by
  cases t with
  | mk lt =>
    show List.isPrefixOf "__STATE__:".toList ("__DATA__:".toList ++ lt) = false
    simp [List.isPrefixOf]

theorem stateMsg_not_data (s : String) :
    isDataMsg ⟨"__STATE__:" ++ s, "OUT", true⟩ = false := by
  cases s with
  | mk ls =>
    show List.isPrefixOf "__DATA__:".toList ("__STATE__:".toList ++ ls) = false
    simp [List.isPrefixOf]

theorem dataMsg_is_data (t : String) :
    isDataMsg ⟨"__DATA__:" ++ t, "OUT", true⟩ = true := by
  cases t with
  | mk lt =>
    show List.isPrefixOf "__DATA__:".toList ("__DATA__:".toList ++ lt) = true
    simp [List.isPrefixOf]

/-- A state/data message pair is balanced. -/
theorem pair_balanced (s t : String) :
    stateCount [⟨"__STATE__:" ++ s, "OUT", true⟩, ⟨"__DATA__:" ++ t, "OUT", true⟩] =
    dataCount [⟨"__STATE__:" ++ s, "OUT", true⟩, ⟨"__DATA__:" ++ t, "OUT", true⟩] := by
  simp [stateCount, dataCount, List.filter, stateMsg_is_state, dataMsg_not_state,
    stateMsg_not_data, dataMsg_is_data]

theorem wb_ok {α : Type} (log : List Msg) (a : α) :
    WB log (Except.ok a, log) :=
  ⟨[], by simp, fun _ h => nomatch h⟩

theorem wb_ok_s {α : Type} (log : List Msg) (a : α) (s : String) :
    WB log (Except.ok a, saveSessionState log s) :=
  ⟨[⟨"__STATE__:" ++ s, "OUT", true⟩], rfl, fun _ h => nomatch h⟩

theorem wb_ok_d {α : Type} (log : List Msg) (a : α) (v : JVal) :
    WB log (Except.ok a, saveSessionData log v) :=
  ⟨[⟨"__DATA__:" ++ jDumps v, "OUT", true⟩], rfl, fun _ h => nomatch h⟩

theorem wb_ok_sd {α : Type} (log : List Msg) (a : α) (s : String) (v : JVal) :
    WB log (Except.ok a, saveSessionData (saveSessionState log s) v) :=
  ⟨[⟨"__STATE__:" ++ s, "OUT", true⟩, ⟨"__DATA__:" ++ jDumps v, "OUT", true⟩],
    by simp [saveSessionState, saveSessionData], fun _ h => nomatch h⟩

theorem wb_err {α : Type} (log : List Msg) (e : PyErr) :
    WB (α := α) log (Except.error e, log) :=
  ⟨[], by simp, fun _ _ => rfl⟩

theorem wb_err_sd {α : Type} (log : List Msg) (e : PyErr) (s : String) (v : JVal) :
    WB (α := α) log (Except.error e, saveSessionData (saveSessionState log s) v) :=
  ⟨[⟨"__STATE__:" ++ s, "OUT", true⟩, ⟨"__DATA__:" ++ jDumps v, "OUT", true⟩],
    by simp [saveSessionState, saveSessionData],
    fun _ _ => pair_balanced s (jDumps v)⟩

/-- The reply formatting of the selection branch only runs after the
balanced state/data pair was written, so it is well behaved even when a
subscript raises. -/
theorem wb_selectedReply (log : List Msg) (pharmacy : JVal) (details : Option PharmDetails)
    (s : String) (v : JVal) :
    WB log (selectedReply pharmacy details (saveSessionData (saveSessionState log s) v)) := by
  unfold selectedReply
  repeat' split
  all_goals first
    | exact wb_ok_sd _ _ _ _
    | exact wb_err_sd _ _ _ _

theorem wb_handleInitial (env : SREnv) (message_text intent : String) (log : List Msg) :
    WB log (handleInitial env message_text intent log) := by
  unfold handleInitial
  repeat' split
  all_goals first
    | exact wb_err _ _
    | exact wb_ok _ _
    | exact wb_ok_sd _ _ _ _

theorem wb_handleAwaitingPharmacy (env : SREnv) (message_text : String) (data : JVal)
    (log : List Msg) :
    WB log (handleAwaitingPharmacy env message_text data log) := by
  unfold handleAwaitingPharmacy
  repeat' split
  all_goals first
    | exact wb_err _ _
    | exact wb_ok _ _
    | exact wb_ok_d _ _ _
    | exact wb_selectedReply _ _ _ _ _

theorem wb_handlePharmacySelected (env : SREnv) (message_text : String) (data : JVal)
    (log : List Msg) :
    WB log (handlePharmacySelected env message_text data log) := by
  unfold handlePharmacySelected
  repeat' split
  all_goals first
    | exact wb_err _ _
    | exact wb_ok _ _
    | exact wb_ok_sd _ _ _ _
    | exact wb_err_sd _ _ _ _

theorem wb_handleCollectingFeedback (env : SREnv) (message_text : String) (data : JVal)
    (log : List Msg) :
    WB log (handleCollectingFeedback env message_text data log) := by
  unfold handleCollectingFeedback
  repeat' split
  all_goals first
    | exact wb_err _ _
    | exact wb_ok _ _
    | exact wb_ok_s _ _ _
    | exact wb_ok_d _ _ _

theorem wb_err_cast {α β : Type} {log lg : List Msg} {e : PyErr}
    (h : WB (α := α) log (Except.error e, lg)) :
    WB (α := β) log (Except.error e, lg) := by
  obtain ⟨tail, h2, h3⟩ := h
  exact ⟨tail, h2, fun _ _ => h3 e rfl⟩

theorem wb_ok_cast {α β : Type} {log lg : List Msg} {r : α} (b : β)
    (h : WB log ((Except.ok r : Except PyErr α), lg)) :
    WB log ((Except.ok b : Except PyErr β), lg) := by
  obtain ⟨tail, h2, _⟩ := h
  exact ⟨tail, h2, fun _ he => nomatch he⟩

theorem wb_stateDispatch (env : SREnv) (message_text intent st : String) (data : JVal)
    (log : List Msg) :
    WB log (stateDispatch env message_text intent st data log) := by
  unfold stateDispatch
  split
  · exact wb_handleInitial _ _ _ _
  split
  · exact wb_handleAwaitingPharmacy _ _ _ _
  split
  · split
    · rename_i heq
      have h := wb_handlePharmacySelected env message_text data log
      rw [heq] at h
      exact wb_err_cast h
    · rename_i r lg heq
      have h := wb_handlePharmacySelected env message_text data log
      rw [heq] at h
      exact wb_ok_cast (some r) h
  split
  · exact wb_handleCollectingFeedback _ _ _ _
  split
  · exact wb_ok _ _
  · exact wb_ok _ _

theorem wb_processBody (env : SREnv) (message_text st : String) (data : JVal)
    (log : List Msg) :
    WB log (processBody env message_text st data log) := by
  unfold processBody
  split
  · exact wb_ok _ _
  split
  · exact wb_ok _ _
  split
  · rename_i r lg heq
    have h := wb_stateDispatch env message_text (detectIntent message_text) st data log
    rw [heq] at h
    exact wb_ok_cast r h
  · rename_i lg heq
    have h := wb_stateDispatch env message_text (detectIntent message_text) st data log
    rw [heq] at h
    exact wb_ok_cast UNKNOWN_REPLY h
  · rename_i e lg heq
    have h := wb_stateDispatch env message_text (detectIntent message_text) st data log
    rw [heq] at h
    exact wb_err_cast h

theorem processMessage_snd (env : SREnv) (message_text : String) (log : List Msg) :
    (processMessage env message_text log).2 =
      (processBody env message_text (getSessionState log) (getSessionData log) log).2 := by
  unfold processMessage
  split <;> rename_i heq <;> rw [heq]

/-- C5: `SmartResponseEngine.process_message` never propagates an
exception (it is a total function into a reply string), it only appends
to the message log, and whenever the body raises — so that the reply is
the generic error response — the new `__STATE__` and `__DATA__` session
messages it managed to write come in balanced pairs: partial state/data
writes never survive an exception. -/
theorem c5_exception_safe_balanced_writes (env : SREnv) (message_text : String)
    (log : List Msg) :
    (processMessage env message_text log).2.take log.length = log ∧
    (∀ e, (processBody env message_text (getSessionState log) (getSessionData log) log).1 =
        Except.error e →
      (processMessage env message_text log).1 = ERROR_REPLY ∧
      stateCount ((processMessage env message_text log).2.drop log.length) =
        dataCount ((processMessage env message_text log).2.drop log.length)) := by
  obtain ⟨tail, h2, h3⟩ :=
    wb_processBody env message_text (getSessionState log) (getSessionData log) log
  have hsnd := processMessage_snd env message_text log
  constructor
  · rw [hsnd, h2]
    exact List.take_left log tail
  · intro e he
    constructor
    · unfold processMessage
      split
      · rename_i r lg heq
        rw [heq] at he
        exact absurd he (by simp)
      · rfl
    · rw [hsnd, h2, List.drop_left]
      exact h3 e he

/-- Witness for C5: with every database collaborator raising, the query
"farmacia centro" makes the body raise before any write; the engine still
answers with the generic error reply and the log gains no unbalanced
state/data messages. -/
theorem c5_exception_safe_balanced_writes_witness :
    (processMessage envFail "farmacia centro" []).1 = ERROR_REPLY ∧
    stateCount ((processMessage envFail "farmacia centro" []).2.drop
        (List.length ([] : List Msg))) =
      dataCount ((processMessage envFail "farmacia centro" []).2.drop
        (List.length ([] : List Msg))) :=
  (c5_exception_safe_balanced_writes envFail "farmacia centro" []).2 PyErr.typeError rfl

/- ### The READY_FOR_REPORT state (C7) -/

/-- Counterexample to C7: in state `READY_FOR_REPORT` the message "hola"
carries no affirmative token, so the claim promises the canned decline
reply; but the greeting short-circuit runs before any state handling and
answers with the greeting instead.  (The affirmative check is also a
substring test, not a token test: "casino" contains "si" and would
trigger the sentinel.) -/
theorem c7_counterexample :
    getSessionState logReady = "ready_for_report" ∧
    reportAffirm "hola" = false ∧
    (processMessage envFail "hola" logReady).1 =
      "Hola, ¿en qué puedo ayudarte hoy? Por favor, identifícate para continuar." ∧
    (processMessage envFail "hola" logReady).1 ≠ DECLINE_REPLY ∧
    reportAffirm "casino" = true := by
  refine ⟨by decide, by decide, by decide, by decide, by decide⟩

/-- C7 as amended: in state `READY_FOR_REPORT`, provided the detected
intent is neither `greeting` nor `help` (those short-circuit first), the
engine returns the GPT sentinel exactly when one of `si`, `sí`,
`generar`, `continue`, `ok` occurs as a substring of the lower-cased
message, and the canned decline reply otherwise; in both cases the log —
and hence the session state — is unchanged. -/
theorem c7_ready_for_report (env : SREnv) (message_text : String) (log : List Msg)
    (h1 : getSessionState log = "ready_for_report")
    (h2 : detectIntent message_text ≠ "greeting")
    (h3 : detectIntent message_text ≠ "help") :
    processMessage env message_text log =
      ((if reportAffirm message_text then GPT_SENTINEL else DECLINE_REPLY), log) := by
  unfold processMessage processBody stateDispatch
  rw [h1]
  rw [if_neg h2, if_neg h3]
  rw [if_neg (by decide : ¬ ("ready_for_report" = "initial"))]
  rw [if_neg (by decide : ¬ ("ready_for_report" = "awaiting_pharmacy"))]
  rw [if_neg (by decide : ¬ ("ready_for_report" = "pharmacy_selected"))]
  rw [if_neg (by decide : ¬ ("ready_for_report" = "collecting_feedback"))]
  rw [if_pos (rfl : "ready_for_report" = "ready_for_report")]

/-- Witness for C7: "vale ok" has intent `unknown`, contains the token
"ok", and in state `READY_FOR_REPORT` yields the GPT sentinel with the
log untouched. -/
theorem c7_ready_for_report_witness :
    processMessage envFail "vale ok" logReady = (GPT_SENTINEL, logReady) := by
  have h := c7_ready_for_report envFail "vale ok" logReady (by decide) (by decide) (by decide)
  rw [h]
  decide

/- ### Placeholder selection in the task (C3) -/

theorem maxByTs_none {l : List MRow} (h : maxByTs l = none) : l = [] := by
  cases l with
  | nil => rfl
  | cons r rs =>
      unfold maxByTs at h
      cases hm : maxByTs rs <;> rw [hm] at h <;> cases h

theorem maxByTs_mem : ∀ {l : List MRow} {b : MRow}, maxByTs l = some b → b ∈ l := by
  intro l
  induction l with
  | nil => intro b h; cases h
  | cons r rs ih =>
      intro b h
      unfold maxByTs at h
      cases hm : maxByTs rs with
      | none =>
          rw [hm] at h
          cases h
          exact List.mem_cons_self r rs
      | some m =>
          rw [hm] at h
          dsimp only at h
          by_cases hc : r.timestamp < m.timestamp
          · rw [if_pos hc] at h
            cases h
            exact List.mem_cons_of_mem r (ih hm)
          · rw [if_neg hc] at h
            cases h
            exact List.mem_cons_self r rs

theorem maxByTs_max : ∀ {l : List MRow} {b : MRow}, maxByTs l = some b →
    ∀ x ∈ l, x.timestamp ≤ b.timestamp := by
  intro l
  induction l with
  | nil => intro b h; cases h
  | cons r rs ih =>
      intro b h x hx
      unfold maxByTs at h
      cases hm : maxByTs rs with
      | none =>
          rw [hm] at h
          cases h
          rcases List.mem_cons.mp hx with hx | hx
          · rw [hx]
          · rw [maxByTs_none hm] at hx
            cases hx
      | some m =>
          rw [hm] at h
          dsimp only at h
          by_cases hc : r.timestamp < m.timestamp
          · rw [if_pos hc] at h
            cases h
            rcases List.mem_cons.mp hx with hx | hx
            · rw [hx]; exact le_of_lt hc
            · exact ih hm x hx
          · rw [if_neg hc] at h
            cases h
            rcases List.mem_cons.mp hx with hx | hx
            · rw [hx]
            · exact le_trans (ih hm x hx) (le_of_not_lt hc)

/-- C3: when the message exists, the pipeline succeeds with `response`
and the conversation save works, the task finds the most recent matching
outbound placeholder of the conversation — which the unprocessed-
placeholder invariant shows is unprocessed — writes the (source-
formatted) response into it via `updateMsg` (which also sets
`ai_processed`), and reports success; with no placeholder present it
appends a fresh processed outbound row carrying the response instead, so
the response is never dropped. -/
theorem c3_placeholder_update_or_create (env : TaskEnv) (msgId : Int) (source : String)
    (retries : Nat) (st : TaskStore) (message : MRow) (response : String)
    (hmsg : getById msgId st.rows = some message)
    (hpipe : env.pipeline message = Except.ok (true, response))
    (htouch : env.convTouch message.conversation = Except.ok ())
    (hinv : ∀ m ∈ st.rows, isPlaceholderFor message.conversation m = true →
      m.ai_processed = false) :
    (taskRun env msgId source retries st).1 =
      TaskOutcome.done ("Successfully processed message " ++ String.mk (encodeInt msgId) ++
        " from " ++ source) ∧
    (match latestPlaceholder message.conversation st.rows with
     | some ph =>
         ph ∈ st.rows ∧ isPlaceholderFor message.conversation ph = true ∧
         ph.ai_processed = false ∧
         (∀ m ∈ st.rows, isPlaceholderFor message.conversation m = true →
           m.timestamp ≤ ph.timestamp) ∧
         (taskRun env msgId source retries st).2.rows =
           updateMsg ph.id (formattedResp source response) st.rows
     | none =>
         (taskRun env msgId source retries st).2.rows =
           st.rows ++ [⟨st.nextId, message.conversation, formattedResp source response,
             "OUT", st.now, true⟩]) := by
  cases hph : latestPlaceholder message.conversation st.rows with
  | some ph =>
      have hrun : taskRun env msgId source retries st =
          (TaskOutcome.done ("Successfully processed message " ++
            String.mk (encodeInt msgId) ++ " from " ++ source),
            { st with rows := updateMsg ph.id (formattedResp source response) st.rows }) := by
        unfold taskRun
        rw [hmsg]
        dsimp only
        unfold taskBody
        rw [hph]
        dsimp only
        unfold taskInner
        rw [hpipe]
        dsimp only
        rw [if_pos rfl]
        unfold writeResponse
        dsimp only
        rw [htouch]
      have hmem := List.mem_filter.mp
        (maxByTs_mem (l := st.rows.filter (isPlaceholderFor message.conversation)) hph)
      refine ⟨by rw [hrun], ?_⟩
      dsimp only
      refine ⟨hmem.1, hmem.2, hinv ph hmem.1 hmem.2, ?_, by rw [hrun]⟩
      intro m hm hpm
      exact maxByTs_max hph m (List.mem_filter.mpr ⟨hm, hpm⟩)
  | none =>
      have hrun : taskRun env msgId source retries st =
          (TaskOutcome.done ("Successfully processed message " ++
            String.mk (encodeInt msgId) ++ " from " ++ source),
            (createResponseMessage st message.conversation
              (formattedResp source response)).2) := by
        unfold taskRun
        rw [hmsg]
        dsimp only
        unfold taskBody
        rw [hph]
        dsimp only
        unfold taskInner
        rw [hpipe]
        dsimp only
        rw [if_pos rfl]
        unfold writeResponse
        dsimp only
        rw [htouch]
      dsimp only
      exact ⟨by rw [hrun], by rw [hrun]; rfl⟩

/-- Witness for C3: a store with one incoming message and one pending
placeholder; the placeholder (row id 2) receives the pipeline response.
-/
theorem c3_placeholder_update_or_create_witness :
    (taskRun envTask 1 "web" 0 stC3).1 =
      TaskOutcome.done ("Successfully processed message " ++ String.mk (encodeInt 1) ++
        " from " ++ "web") ∧
    (match latestPlaceholder (7 : Int) stC3.rows with
     | some ph =>
         ph ∈ stC3.rows ∧ isPlaceholderFor 7 ph = true ∧ ph.ai_processed = false ∧
         (∀ m ∈ stC3.rows, isPlaceholderFor 7 m = true → m.timestamp ≤ ph.timestamp) ∧
         (taskRun envTask 1 "web" 0 stC3).2.rows =
           updateMsg ph.id (formattedResp "web" "respuesta final") stC3.rows
     | none =>
         (taskRun envTask 1 "web" 0 stC3).2.rows =
           stC3.rows ++ [⟨stC3.nextId, 7, formattedResp "web" "respuesta final",
             "OUT", stC3.now, true⟩]) :=
  c3_placeholder_update_or_create envTask 1 "web" 0 stC3 ⟨1, 7, "hola", "IN", 10, false⟩
    "respuesta final" rfl rfl rfl (by decide)

/- ### The missing-message branch of the task (C4) -/

/-- Counterexample to C4: with an empty message table the task does not
fail terminally — it retries, with countdown `2 ** 0 = 1`. -/
theorem c4_counterexample :
    getById 5 stEmpty.rows = none ∧
    (taskRun envTask 5 "web" 0 stEmpty).1 = TaskOutcome.retryAt 1 ∧
    TaskOutcome.retryAt 1 ≠ TaskOutcome.failed := by
  refine ⟨rfl, by decide, by decide⟩

/-- C4 as amended: when the message id is absent the task touches
nothing and raises `self.retry(countdown=2 ** retries)`, a `Retry` while
fewer than `max_retries = 3` attempts were made and the terminal failure
only afterwards. -/
theorem c4_missing_message_retries (env : TaskEnv) (msgId : Int) (source : String)
    (retries : Nat) (st : TaskStore)
    (h : getById msgId st.rows = none) :
    taskRun env msgId source retries st =
      ((if retries < 3 then TaskOutcome.retryAt (2 ^ retries) else TaskOutcome.failed), st) := by
  unfold taskRun
  rw [h]
  rfl

/-- Witness for C4: on the fourth attempt (`retries = 3`) the retry
becomes the terminal failure. -/
theorem c4_missing_message_retries_witness :
    taskRun envTask 5 "web" 3 stEmpty = (TaskOutcome.failed, stEmpty) := by
  rw [c4_missing_message_retries envTask 5 "web" 3 stEmpty rfl]
  decide

end DermoFarm
